import Mathlib

/-!
Shallow embedding of `scripts/reupload_failed_workitems.py`: the SQLite-backed
`StateTracker`, the per-item `process_workitem` state machine, the
`belongs_to_partition` assigner, and the result-tally loop of `main`.

The two SQLite tables are modelled as association lists keyed exactly like the
tables' primary keys; each `StateTracker` method becomes a pure function on the
database value.  External effects (the Kusto metadata query, the blob transfer,
and the shutdown event polled at each checkpoint) are inputs in an `Env` record.
-/

/-- Generic association-list lookup: first row whose key matches, like a SQL
`SELECT ... WHERE key = ?` under a primary-key constraint. -/
def findAssoc {κ ρ : Type} [DecidableEq κ] : List (κ × ρ) → κ → Option ρ
  | [], _ => none
  | e :: rest, k => if e.1 = k then some e.2 else findAssoc rest k

/-- Unconditional `UPDATE ... WHERE key = ?`: rewrite every row with the key. -/
def updAssoc {κ ρ : Type} [DecidableEq κ] (l : List (κ × ρ)) (k : κ) (f : ρ → ρ) :
    List (κ × ρ) :=
  l.map (fun e => if e.1 = k then (e.1, f e.2) else e)

/-- Conditional `UPDATE ... WHERE key = ? AND <condition>`: rewrite every row
with the key whose payload satisfies `p`. -/
def updAssocIf {κ ρ : Type} [DecidableEq κ] (l : List (κ × ρ)) (k : κ) (p : ρ → Bool)
    (f : ρ → ρ) : List (κ × ρ) :=
  l.map (fun e => if e.1 = k ∧ p e.2 = true then (e.1, f e.2) else e)

/-- Number of rows a conditional `UPDATE` touches (`cursor.rowcount`). -/
def countMatch {κ ρ : Type} [DecidableEq κ] (l : List (κ × ρ)) (k : κ) (p : ρ → Bool) :
    Nat :=
  l.countP (fun e => decide (e.1 = k ∧ p e.2 = true))

/-- `INSERT OR IGNORE`: append the row only when the key is absent. -/
def insAssoc {κ ρ : Type} [DecidableEq κ] (l : List (κ × ρ)) (k : κ) (v : ρ) :
    List (κ × ρ) :=
  if (findAssoc l k).isSome then l else l ++ [(k, v)]

/-- Keys of an association list (for the primary-key uniqueness invariant). -/
def keysOf {κ ρ : Type} (l : List (κ × ρ)) : List κ := l.map (·.1)

/-- A row of the `workitems` table (columns of the `CREATE TABLE workitems`). -/
structure WorkItemRow where
  workitem_name : String
  status : String
  files_total : Nat
  files_processed : Nat
  error_message : Option String
  started_at : Option String
  completed_at : Option String
deriving DecidableEq, Repr

/-- A row of the `files` table (columns of the `CREATE TABLE files`). -/
structure FileRow where
  source_uri : String
  status : String
  error_message : Option String
  uploaded_at : Option String
deriving DecidableEq, Repr

/-- The state database: `workitems` keyed by `(workitem_id, job_id)` and
`files` keyed by `(workitem_id, job_id, filename)`. -/
structure DB where
  workitems : List ((String × String) × WorkItemRow)
  files : List ((String × String × String) × FileRow)
deriving DecidableEq, Repr

/-- Primary-key uniqueness of both tables, guaranteed by SQLite. -/
def DB.wf (db : DB) : Prop :=
  (keysOf db.workitems).Nodup ∧ (keysOf db.files).Nodup

instance (db : DB) : Decidable db.wf := by unfold DB.wf; infer_instance

/-- `FileMetadata` as returned by the Kusto query. -/
structure FileMetadata where
  job_id : String
  workitem_id : String
  workitem_name : String
  source_uri : String
  filename : String
deriving DecidableEq, Repr

/-- `os.path.basename` (POSIX): the part after the last slash. -/
def basename (s : String) : String :=
  String.mk ((s.data.reverse.takeWhile (fun c => c != '/')).reverse)

/-- Destination blob name built by `FileReuploader.reupload_file`:
`{workitem_name}-{basename(filename)}`. -/
def blob_name (f : FileMetadata) : String :=
  f.workitem_name ++ "-" ++ basename f.filename

/-- `StateTracker.add_workitem`: `INSERT OR IGNORE` with status `'pending'`
(`files_total`/`files_processed` take their column defaults of 0). -/
def add_workitem (db : DB) (workitem_id workitem_name job_id : String) : DB :=
  let row : WorkItemRow :=
    { workitem_name := workitem_name, status := "pending", files_total := 0,
      files_processed := 0, error_message := none, started_at := none,
      completed_at := none }
  { db with workitems := insAssoc db.workitems (workitem_id, job_id) row }

/-- `StateTracker.update_workitem_status`: three SQL branches — `in_progress`
also sets `started_at`; `completed`/`failed` also set `completed_at` and
`error_message`; anything else sets `status` and `error_message`. -/
def update_workitem_status (db : DB) (workitem_id job_id status : String)
    (error_message : Option String) (ts : String) : DB :=
  let wis :=
    if status = "in_progress" then
      updAssoc db.workitems (workitem_id, job_id)
        (fun r => { r with status := status, started_at := some ts })
    else if status = "completed" ∨ status = "failed" then
      updAssoc db.workitems (workitem_id, job_id)
        (fun r => { r with status := status, completed_at := some ts,
                           error_message := error_message })
    else
      updAssoc db.workitems (workitem_id, job_id)
        (fun r => { r with status := status, error_message := error_message })
  { db with workitems := wis }

/-- `StateTracker.update_workitem_file_count`: `SET files_total = ?`. -/
def update_workitem_file_count (db : DB) (workitem_id job_id : String)
    (files_total : Nat) : DB :=
  let wis :=
    updAssoc db.workitems (workitem_id, job_id)
      (fun r => { r with files_total := files_total })
  { db with workitems := wis }

/-- `StateTracker.add_file`: `INSERT OR IGNORE` with status `'pending'`. -/
def add_file (db : DB) (workitem_id job_id filename source_uri : String) : DB :=
  let row : FileRow :=
    { source_uri := source_uri, status := "pending", error_message := none,
      uploaded_at := none }
  { db with files := insAssoc db.files (workitem_id, job_id, filename) row }

/-- `StateTracker.update_file_status`: write the file row's status, error and
`uploaded_at`; then, whenever the new status is `'completed'`, increment the
parent work item's `files_processed`. -/
def update_file_status (db : DB) (workitem_id job_id filename status : String)
    (error_message : Option String) (ts : String) : DB :=
  let fs1 :=
    updAssoc db.files (workitem_id, job_id, filename)
      (fun r => { r with status := status, error_message := error_message,
                         uploaded_at := some ts })
  let db1 : DB := { db with files := fs1 }
  if status = "completed" then
    let wis :=
      updAssoc db1.workitems (workitem_id, job_id)
        (fun r => { r with files_processed := r.files_processed + 1 })
    { db1 with workitems := wis }
  else db1

/-- The `status IN ('pending', 'failed')` condition of `claim_file`. -/
def claimCond (r : FileRow) : Bool := r.status == "pending" || r.status == "failed"

/-- `StateTracker.claim_file`: conditional `UPDATE` to `'in_progress'` limited
to rows whose status is `'pending'` or `'failed'`; returns `rowcount == 1`. -/
def claim_file (db : DB) (workitem_id job_id filename ts : String) : Bool × DB :=
  let fs1 :=
    updAssocIf db.files (workitem_id, job_id, filename) claimCond
      (fun r => { r with status := "in_progress", error_message := none,
                         uploaded_at := some ts })
  (countMatch db.files (workitem_id, job_id, filename) claimCond == 1,
   { db with files := fs1 })

/-- `StateTracker.get_workitem_status` (point read of the status column). -/
def get_workitem_status (db : DB) (workitem_id job_id : String) : Option String :=
  (findAssoc db.workitems (workitem_id, job_id)).map (·.status)

/-- `StateTracker.get_file_status` (point read of the status column). -/
def get_file_status (db : DB) (workitem_id job_id filename : String) : Option String :=
  (findAssoc db.files (workitem_id, job_id, filename)).map (·.status)

/-- The stored `files_total` of a work item. -/
def workitem_total (db : DB) (workitem_id job_id : String) : Option Nat :=
  (findAssoc db.workitems (workitem_id, job_id)).map (·.files_total)

/-- The stored `files_processed` of a work item. -/
def workitem_processed (db : DB) (workitem_id job_id : String) : Option Nat :=
  (findAssoc db.workitems (workitem_id, job_id)).map (·.files_processed)

/-- The stored `error_message` of a work item. -/
def workitem_error (db : DB) (workitem_id job_id : String) : Option (Option String) :=
  (findAssoc db.workitems (workitem_id, job_id)).map (·.error_message)

/-- External inputs of one `process_workitem` call: the Kusto query outcome,
the per-file transfer outcome of `FileReuploader.reupload_file`, the shutdown
event sampled at each of the three polling checkpoints, and the wall-clock
timestamp written by the tracker. -/
structure Env where
  queryResult : Except String (List FileMetadata)
  transfer : FileMetadata → Bool × Option String
  shutdownAtStart : Bool
  shutdownBeforeDispatch : Bool
  shutdownDuring : Nat → Bool
  ts : String

/-- The de-duplication loop of `process_workitem`: an insertion-ordered dict
keyed by `os.path.basename(file_meta.filename)`; first occurrence wins. -/
def dedupeFiles (files : List FileMetadata) : List FileMetadata :=
  files.foldl
    (fun acc f =>
      if acc.any (fun g => basename g.filename == basename f.filename) then acc
      else acc ++ [f])
    []

/-- One iteration of the claim loop: upsert the file row, skip it when its
stored status is `'completed'`, otherwise attempt `claim_file` and collect it
when the claim succeeded. -/
def claimStep (workitem_id job_id ts : String) (acc : DB × List FileMetadata)
    (f : FileMetadata) : DB × List FileMetadata :=
  let db := add_file acc.1 workitem_id job_id f.filename f.source_uri
  if get_file_status db workitem_id job_id f.filename = some "completed" then
    (db, acc.2)
  else
    let r := claim_file db workitem_id job_id f.filename ts
    (r.2, if r.1 then acc.2 ++ [f] else acc.2)

/-- The claim loop of `process_workitem` over the de-duplicated file list,
returning the updated database and `files_to_process`. -/
def claimLoop (workitem_id job_id ts : String) (db : DB) (files : List FileMetadata) :
    DB × List FileMetadata :=
  files.foldl (claimStep workitem_id job_id ts) (db, [])

/-- The aggregated error message for failed files: the count, up to five
names, and an overflow note. -/
def failMsg (failed_files : List String) : String :=
  let base := toString failed_files.length ++ " files failed: " ++
    String.intercalate ", " (failed_files.take 5)
  if 5 < failed_files.length then
    base ++ " and " ++ toString (failed_files.length - 5) ++ " more"
  else base

/-- The inner-pool drain of `process_workitem`: before handling each completed
transfer the shutdown event is polled — once observed, the work item reverts to
`'pending'` with a shutdown note and the call reports `false`.  Otherwise each
transfer outcome is written as the file's terminal status, and after full drain
the work item becomes `'failed'` (aggregated message) or `'completed'`. -/
def drainFiles (workitem_id job_id : String) (env : Env) :
    Nat → DB → List FileMetadata → List String → Bool × DB
  | _, db, [], failed_files =>
      if failed_files.isEmpty then
        (true, update_workitem_status db workitem_id job_id "completed" none env.ts)
      else
        (false, update_workitem_status db workitem_id job_id "failed"
          (some (failMsg failed_files)) env.ts)
  | k, db, f :: rest, failed_files =>
      if env.shutdownDuring k then
        (false, update_workitem_status db workitem_id job_id "pending"
          (some "Shutdown requested mid-processing") env.ts)
      else
        let t := env.transfer f
        if t.1 then
          drainFiles workitem_id job_id env (k + 1)
            (update_file_status db workitem_id job_id f.filename "completed" none env.ts)
            rest failed_files
        else
          drainFiles workitem_id job_id env (k + 1)
            (update_file_status db workitem_id job_id f.filename "failed" t.2 env.ts)
            rest (failed_files ++ [f.filename])

/-- `process_workitem`: the per-item state machine — shutdown check, resume
check, `in_progress` transition, metadata resolution, empty-list fast path,
de-duplication, pre-dispatch shutdown check, `files_total` write, claim loop,
nothing-claimed fast path, and the drain of the inner transfer pool. -/
def process_workitem (workitem_id job_id : String) (env : Env) (db : DB) :
    Bool × DB :=
  if env.shutdownAtStart then (false, db)
  else if get_workitem_status db workitem_id job_id = some "completed" then (true, db)
  else
    let db1 := update_workitem_status db workitem_id job_id "in_progress" none env.ts
    match env.queryResult with
    | Except.error e =>
        (false, update_workitem_status db1 workitem_id job_id "failed"
          (some ("Kusto query failed: " ++ e)) env.ts)
    | Except.ok files =>
        if files.isEmpty then
          (true, update_workitem_status db1 workitem_id job_id "completed" none env.ts)
        else
          let unique_files := dedupeFiles files
          if env.shutdownBeforeDispatch then
            (false, update_workitem_status db1 workitem_id job_id "pending" none env.ts)
          else
            let db2 := update_workitem_file_count db1 workitem_id job_id
              unique_files.length
            let c := claimLoop workitem_id job_id env.ts db2 unique_files
            if c.2.isEmpty then
              (true, update_workitem_status c.1 workitem_id job_id "completed" none env.ts)
            else
              drainFiles workitem_id job_id env 0 c.1 c.2 []

/-- `belongs_to_partition`: `hash(workitem_id) % total_partitions == partition`,
with Python's string hash abstracted as an arbitrary integer-valued function
(Python `%` on a positive modulus agrees with `Int.emod`). -/
def belongs_to_partition (pyhash : String → Int) (workitem_id : String)
    (partition total_partitions : Int) : Bool :=
  decide (pyhash workitem_id % total_partitions = partition)

/-- Outcome of one work-item future as observed by `main`'s tally loop:
a boolean return value, a `CancelledError`, or any other exception. -/
inductive FutureOutcome where
  | result (b : Bool)
  | cancelled
  | errored
deriving DecidableEq, Repr

/-- One tally update of `main`: `True` counts completed, `False` counts
failed, `CancelledError` counts skipped, other exceptions count failed. -/
def tallyStep (acc : Nat × Nat × Nat) (o : FutureOutcome) : Nat × Nat × Nat :=
  match o with
  | FutureOutcome.result true => (acc.1 + 1, acc.2.1, acc.2.2)
  | FutureOutcome.result false => (acc.1, acc.2.1 + 1, acc.2.2)
  | FutureOutcome.cancelled => (acc.1, acc.2.1, acc.2.2 + 1)
  | FutureOutcome.errored => (acc.1, acc.2.1 + 1, acc.2.2)

/-- `main`'s result loop over the completion stream: each element carries the
shutdown-event value sampled at the top of the iteration and the future's
outcome; a set shutdown event breaks out before consuming the outcome. -/
def tallyLoop : List (Bool × FutureOutcome) → Nat × Nat × Nat → Nat × Nat × Nat
  | [], acc => acc
  | e :: rest, acc => if e.1 then acc else tallyLoop rest (tallyStep acc e.2)

/-- `main`'s exit status derivation: 1 when the failed tally is positive,
0 otherwise. -/
def mainExit (l : List (Bool × FutureOutcome)) : Nat :=
  if 0 < (tallyLoop l (0, 0, 0)).2.1 then 1 else 0

/-- No file row ever loses a `'completed'` status between two database states
(for any key of the `files` table). -/
def completedPreserved (db db' : DB) : Prop :=
  ∀ w j fn, get_file_status db w j fn = some "completed" →
    get_file_status db' w j fn = some "completed"

/-- `files_processed ≤ files_total` for a given work item's stored row. -/
def procLeTotal (db : DB) (workitem_id job_id : String) : Prop :=
  ∀ r, findAssoc db.workitems (workitem_id, job_id) = some r →
    r.files_processed ≤ r.files_total

/-- A `'completed'` work-item row has `files_processed = files_total`. -/
def completedImpliesEq (db : DB) (workitem_id job_id : String) : Prop :=
  ∀ r, findAssoc db.workitems (workitem_id, job_id) = some r →
    r.status = "completed" → r.files_processed = r.files_total

/-- Repeated `claim_file` calls on one key with successive timestamps,
returning the list of returned booleans and the final database. -/
def claimSeq (db : DB) (workitem_id job_id filename : String) :
    List String → List Bool × DB
  | [] => ([], db)
  | ts :: rest =>
      let r := claim_file db workitem_id job_id filename ts
      let s := claimSeq r.2 workitem_id job_id filename rest
      (r.1 :: s.1, s.2)

/-- A file's stored status is one of the four tracker statuses, or the row is
absent. -/
def statusWellFormed (st : Option String) : Prop :=
  st = none ∨ st = some "pending" ∨ st = some "failed" ∨
    st = some "in_progress" ∨ st = some "completed"

instance (st : Option String) : Decidable (statusWellFormed st) := by
  unfold statusWellFormed; infer_instance

/-- A stored file status on which the claim loop's claim attempt succeeds:
the row is absent (it is upserted as `'pending'` first), `'pending'`, or
`'failed'`. -/
def claimable (st : Option String) : Bool :=
  st == none || st == some "pending" || st == some "failed"

/-- The `files_to_process` list assembled by `process_workitem`'s claim loop:
the claim loop's result over the de-duplicated resolution, run on the state
after the `in_progress` transition and the `files_total` write. -/
def claimedFiles (workitem_id job_id : String) (env : Env) (db : DB)
    (fs : List FileMetadata) : List FileMetadata :=
  (claimLoop workitem_id job_id env.ts
    (update_workitem_file_count
      (update_workitem_status db workitem_id job_id "in_progress" none env.ts)
      workitem_id job_id (dedupeFiles fs).length)
    (dedupeFiles fs)).2

/-! Concrete fixtures used to evaluate the model on explicit inputs. -/

/-- A freshly seeded work-item row. -/
def wRowPending : WorkItemRow :=
  { workitem_name := "n", status := "pending", files_total := 0,
    files_processed := 0, error_message := none, started_at := none,
    completed_at := none }

/-- An already-completed work-item row. -/
def wRowCompleted : WorkItemRow := { wRowPending with status := "completed" }

/-- A pending file row. -/
def fRowPending : FileRow :=
  { source_uri := "u", status := "pending", error_message := none,
    uploaded_at := none }

/-- An in-progress (claimed) file row. -/
def fRowInProgress : FileRow := { fRowPending with status := "in_progress" }

/-- A completed file row. -/
def fRowCompleted : FileRow := { fRowPending with status := "completed" }

/-- A resolved file. -/
def fmA : FileMetadata :=
  { job_id := "j", workitem_id := "w", workitem_name := "n1",
    source_uri := "u1", filename := "x/a.json" }

/-- A resolved file sharing `fmA`'s base name under a different work-item
name, so its destination blob name differs from `fmA`'s. -/
def fmB : FileMetadata :=
  { job_id := "j", workitem_id := "w", workitem_name := "n2",
    source_uri := "u2", filename := "y/a.json" }

/-- A resolved file with a distinct base name. -/
def fmC : FileMetadata :=
  { job_id := "j", workitem_id := "w", workitem_name := "n1",
    source_uri := "u3", filename := "x/b.json" }

/-- A database with one freshly seeded work item and no file rows. -/
def dbOneItem : DB := { workitems := [(("w", "j"), wRowPending)], files := [] }

/-- A database whose work item is already completed. -/
def dbCompleted : DB :=
  { workitems := [(("w", "j"), wRowCompleted)], files := [] }

/-- A database with one pending file row. -/
def dbFilePending : DB :=
  { workitems := [(("w", "j"), wRowPending)],
    files := [(("w", "j", "x/a.json"), fRowPending)] }

/-- A database whose only file row is already claimed (`'in_progress'`). -/
def dbFileInProgress : DB :=
  { workitems := [(("w", "j"), wRowPending)],
    files := [(("w", "j", "x/a.json"), fRowInProgress)] }

/-- A database whose file row is completed and already counted. -/
def dbC3 : DB :=
  { workitems := [(("w", "j"),
      { wRowPending with files_total := 1, files_processed := 1 })],
    files := [(("w", "j", "f"), fRowCompleted)] }

/-- A stale work-item row: `files_total` was set to 5 by an earlier run. -/
def dbStaleTotal : DB :=
  { workitems := [(("w", "j"), { wRowPending with files_total := 5 })],
    files := [] }

/-- An environment whose resolution returns one file and whose transfers all
succeed, with no shutdown signal. -/
def envBase : Env :=
  { queryResult := Except.ok [fmA], transfer := fun _ => (true, none),
    shutdownAtStart := false, shutdownBeforeDispatch := false,
    shutdownDuring := fun _ => false, ts := "T" }

/-- `envBase` with a failing transfer. -/
def envFailT : Env := { envBase with transfer := fun _ => (false, some "boom") }

/-- `envBase` with an empty resolution result. -/
def envEmptyQ : Env :=
  { envBase with queryResult := Except.ok ([] : List FileMetadata) }

/-- An environment resolving two files whose shutdown event is observed while
draining the inner pool. -/
def envShut : Env :=
  { envBase with queryResult := Except.ok [fmA, fmC], shutdownDuring := fun _ => true }

/-- Python's built-in string hash as observed inside one process: `hash()`
is salted per process (with `PYTHONHASHSEED` unset, the default), so the same
string hashes to different values in different processes.  `hashSaltA` stands
for the hash function of one cooperating partition process. -/
def hashSaltA : String → Int := fun s => Int.ofNat s.length

/-- The hash function of a second cooperating partition process, whose salt
shifts every hash value by one relative to `hashSaltA`. -/
def hashSaltB : String → Int := fun s => Int.ofNat s.length + 1

/-! ### Association-list lemmas (the SQL-table layer) -/

theorem findAssoc_updAssoc_self {κ ρ : Type} [DecidableEq κ] (l : List (κ × ρ))
    (k : κ) (f : ρ → ρ) :
    findAssoc (updAssoc l k f) k = (findAssoc l k).map f := by
  induction l with
  | nil => rfl
  | cons e rest ih =>
      by_cases h : e.1 = k
      · simp [updAssoc, findAssoc, h]
      · simpa [updAssoc, findAssoc, h] using ih

theorem findAssoc_updAssoc_ne {κ ρ : Type} [DecidableEq κ] (l : List (κ × ρ))
    (k k' : κ) (f : ρ → ρ) (hne : k' ≠ k) :
    findAssoc (updAssoc l k f) k' = findAssoc l k' := by
  induction l with
  | nil => rfl
  | cons e rest ih =>
      by_cases h2 : e.1 = k'
      · have h : ¬e.1 = k := fun hc => hne (h2 ▸ hc)
        simp [updAssoc, findAssoc, h, h2, hne]
      · by_cases h : e.1 = k
        · simp only [updAssoc, List.map_cons, if_pos h, findAssoc]
          rw [if_neg h2, if_neg h2]
          exact ih
        · simp only [updAssoc, List.map_cons, if_neg h, findAssoc]
          rw [if_neg h2, if_neg h2]
          exact ih

theorem findAssoc_updAssocIf_self {κ ρ : Type} [DecidableEq κ] (l : List (κ × ρ))
    (k : κ) (p : ρ → Bool) (f : ρ → ρ) :
    findAssoc (updAssocIf l k p f) k =
      (findAssoc l k).map (fun r => if p r = true then f r else r) := by
  induction l with
  | nil => rfl
  | cons e rest ih =>
      by_cases h : e.1 = k
      · by_cases hp : p e.2 = true
        · simp [updAssocIf, findAssoc, h, hp]
        · simp [updAssocIf, findAssoc, h, hp]
      · simpa [updAssocIf, findAssoc, h] using ih

theorem findAssoc_updAssocIf_ne {κ ρ : Type} [DecidableEq κ] (l : List (κ × ρ))
    (k k' : κ) (p : ρ → Bool) (f : ρ → ρ) (hne : k' ≠ k) :
    findAssoc (updAssocIf l k p f) k' = findAssoc l k' := by
  induction l with
  | nil => rfl
  | cons e rest ih =>
      by_cases h2 : e.1 = k'
      · have h : ¬(e.1 = k ∧ p e.2 = true) := fun hc => hne (h2 ▸ hc.1)
        simp [updAssocIf, findAssoc, h, h2, hne]
      · by_cases h : e.1 = k ∧ p e.2 = true
        · simp only [updAssocIf, List.map_cons, if_pos h, findAssoc]
          rw [if_neg h2, if_neg h2]
          exact ih
        · simp only [updAssocIf, List.map_cons, if_neg h, findAssoc]
          rw [if_neg h2, if_neg h2]
          exact ih

theorem findAssoc_append {κ ρ : Type} [DecidableEq κ] (l m : List (κ × ρ)) (k : κ) :
    findAssoc (l ++ m) k = ((findAssoc l k).rec (findAssoc m k) (fun r => some r)) := by
  induction l with
  | nil => rfl
  | cons e rest ih =>
      by_cases h : e.1 = k
      · simp [findAssoc, h]
      · simpa [findAssoc, h] using ih

theorem findAssoc_insAssoc_self {κ ρ : Type} [DecidableEq κ] (l : List (κ × ρ))
    (k : κ) (v : ρ) :
    findAssoc (insAssoc l k v) k = some ((findAssoc l k).getD v) := by
  unfold insAssoc
  cases hf : findAssoc l k with
  | some r => simp [hf]
  | none => simp [hf, findAssoc_append, findAssoc]

theorem findAssoc_insAssoc_ne {κ ρ : Type} [DecidableEq κ] (l : List (κ × ρ))
    (k k' : κ) (v : ρ) (hne : k' ≠ k) :
    findAssoc (insAssoc l k v) k' = findAssoc l k' := by
  unfold insAssoc
  cases hf : findAssoc l k with
  | some r => simp [hf]
  | none =>
      cases hf' : findAssoc l k' with
      | some r => simp [hf, findAssoc_append, hf']
      | none => simp [hf, findAssoc_append, hf', findAssoc, Ne.symm hne]

theorem findAssoc_none_iff {κ ρ : Type} [DecidableEq κ] (l : List (κ × ρ)) (k : κ) :
    findAssoc l k = none ↔ k ∉ keysOf l := by
  induction l with
  | nil => simp [findAssoc, keysOf]
  | cons e rest ih =>
      by_cases h : e.1 = k
      · simp [findAssoc, keysOf, h]
      · have h' : ¬k = e.1 := fun hc => h hc.symm
        simp [findAssoc, keysOf, if_neg h, h', ih]

theorem keysOf_updAssoc {κ ρ : Type} [DecidableEq κ] (l : List (κ × ρ)) (k : κ)
    (f : ρ → ρ) : keysOf (updAssoc l k f) = keysOf l := by
  induction l with
  | nil => rfl
  | cons e rest ih =>
      by_cases h : e.1 = k
      · simpa [updAssoc, keysOf, h] using ih
      · simpa [updAssoc, keysOf, h] using ih

theorem keysOf_updAssocIf {κ ρ : Type} [DecidableEq κ] (l : List (κ × ρ)) (k : κ)
    (p : ρ → Bool) (f : ρ → ρ) : keysOf (updAssocIf l k p f) = keysOf l := by
  induction l with
  | nil => rfl
  | cons e rest ih =>
      by_cases h : e.1 = k ∧ p e.2 = true
      · simpa [updAssocIf, keysOf, h] using ih
      · simpa [updAssocIf, keysOf, h] using ih

theorem keysOf_insAssoc_nodup {κ ρ : Type} [DecidableEq κ] (l : List (κ × ρ))
    (k : κ) (v : ρ) (h : (keysOf l).Nodup) : (keysOf (insAssoc l k v)).Nodup := by
  unfold insAssoc
  cases hf : findAssoc l k with
  | some r => simpa [hf] using h
  | none =>
      have hk : k ∉ keysOf l := (findAssoc_none_iff l k).mp hf
      simp only [hf, Option.isSome_none, Bool.false_eq_true, if_neg]
      have : keysOf (l ++ [(k, v)]) = keysOf l ++ [k] := by simp [keysOf]
      rw [if_neg (by simp), this]
      simp [List.nodup_append, h, hk]

theorem countMatch_zero {κ ρ : Type} [DecidableEq κ] (l : List (κ × ρ)) (k : κ)
    (p : ρ → Bool) (h : k ∉ keysOf l) : countMatch l k p = 0 := by
  induction l with
  | nil => rfl
  | cons e rest ih =>
      simp only [keysOf, List.map_cons, List.mem_cons, not_or] at h
      have he : ¬(e.1 = k ∧ p e.2 = true) := fun hc => h.1 (hc.1 ▸ rfl)
      have hr : k ∉ keysOf rest := h.2
      simp [countMatch, List.countP_cons, he] at *
      exact ih hr

theorem countMatch_eq_of_nodup {κ ρ : Type} [DecidableEq κ] (l : List (κ × ρ))
    (k : κ) (p : ρ → Bool) (h : (keysOf l).Nodup) :
    countMatch l k p =
      (match findAssoc l k with
       | some r => if p r = true then 1 else 0
       | none => 0) := by
  induction l with
  | nil => rfl
  | cons e rest ih =>
      simp only [keysOf, List.map_cons, List.nodup_cons] at h
      by_cases he : e.1 = k
      · have hz : countMatch rest k p = 0 :=
          countMatch_zero rest k p (he ▸ h.1)
        simp only [countMatch, List.countP_cons, findAssoc, if_pos he]
        simp only [countMatch] at hz
        rw [hz]
        by_cases hp : p e.2 = true
        · simp [he, hp]
        · simp [he, hp]
      · have hc : ¬(e.1 = k ∧ p e.2 = true) := fun hx => he hx.1
        simp only [countMatch, List.countP_cons, findAssoc, if_neg he]
        simp only [hc, decide_eq_true_eq, if_false, decide_eq_false hc,
          Nat.add_zero]
        simpa [countMatch] using ih h.2

theorem updAssocIf_not_mem {κ ρ : Type} [DecidableEq κ] (l : List (κ × ρ)) (k : κ)
    (p : ρ → Bool) (f : ρ → ρ) (h : k ∉ keysOf l) : updAssocIf l k p f = l := by
  induction l with
  | nil => rfl
  | cons e rest ih =>
      simp only [keysOf, List.map_cons, List.mem_cons, not_or] at h
      have he : ¬(e.1 = k ∧ p e.2 = true) := fun hc => h.1 (hc.1 ▸ rfl)
      simp only [updAssocIf, List.map_cons, if_neg he]
      have := ih h.2
      simp only [updAssocIf] at this
      rw [this]

theorem updAssocIf_id {κ ρ : Type} [DecidableEq κ] (l : List (κ × ρ)) (k : κ)
    (p : ρ → Bool) (f : ρ → ρ) (h : (keysOf l).Nodup)
    (hfail : findAssoc l k = none ∨ ∃ r, findAssoc l k = some r ∧ p r = false) :
    updAssocIf l k p f = l := by
  induction l with
  | nil => rfl
  | cons e rest ih =>
      simp only [keysOf, List.map_cons, List.nodup_cons] at h
      by_cases he : e.1 = k
      · have hp : p e.2 = false := by
          rcases hfail with hn | ⟨r, hr, hpr⟩
          · simp [findAssoc, he] at hn
          · simp only [findAssoc, if_pos he] at hr
            cases hr
            exact hpr
        have hcond : ¬(e.1 = k ∧ p e.2 = true) := fun hc => by
          rw [hp] at hc; exact Bool.false_ne_true hc.2
        have hrest : updAssocIf rest k p f = rest :=
          updAssocIf_not_mem rest k p f (he ▸ h.1)
        simp only [updAssocIf, List.map_cons, if_neg hcond]
        simp only [updAssocIf] at hrest
        rw [hrest]
      · have hcond : ¬(e.1 = k ∧ p e.2 = true) := fun hc => he hc.1
        have hfail' : findAssoc rest k = none ∨
            ∃ r, findAssoc rest k = some r ∧ p r = false := by
          rcases hfail with hn | ⟨r, hr, hpr⟩
          · left; simpa [findAssoc, if_neg he] using hn
          · right; exact ⟨r, by simpa [findAssoc, if_neg he] using hr, hpr⟩
        have := ih h.2 hfail'
        simp only [updAssocIf, List.map_cons, if_neg hcond]
        simp only [updAssocIf] at this
        rw [this]

/-! ### StateTracker operation lemmas -/

theorem files_update_workitem_status (db : DB) (wid jid st : String)
    (err : Option String) (ts : String) :
    (update_workitem_status db wid jid st err ts).files = db.files := rfl

theorem get_file_status_update_workitem_status (db : DB) (wid jid st : String)
    (err : Option String) (ts : String) (w j f : String) :
    get_file_status (update_workitem_status db wid jid st err ts) w j f =
      get_file_status db w j f := rfl

theorem get_workitem_status_update_self (db : DB) (wid jid st : String)
    (err : Option String) (ts : String) :
    get_workitem_status (update_workitem_status db wid jid st err ts) wid jid =
      (get_workitem_status db wid jid).map (fun _ => st) := by
  unfold get_workitem_status update_workitem_status
  split_ifs with h1 h2 <;>
    cases hf : findAssoc db.workitems (wid, jid) <;>
      simp [findAssoc_updAssoc_self, hf]

theorem workitem_total_update_status (db : DB) (wid jid st : String)
    (err : Option String) (ts : String) :
    workitem_total (update_workitem_status db wid jid st err ts) wid jid =
      workitem_total db wid jid := by
  unfold workitem_total update_workitem_status
  split_ifs with h1 h2 <;>
    cases hf : findAssoc db.workitems (wid, jid) <;>
      simp [findAssoc_updAssoc_self, hf]

theorem workitem_processed_update_status (db : DB) (wid jid st : String)
    (err : Option String) (ts : String) :
    workitem_processed (update_workitem_status db wid jid st err ts) wid jid =
      workitem_processed db wid jid := by
  unfold workitem_processed update_workitem_status
  split_ifs with h1 h2 <;>
    cases hf : findAssoc db.workitems (wid, jid) <;>
      simp [findAssoc_updAssoc_self, hf]

theorem workitem_error_update_status (db : DB) (wid jid st : String)
    (err : Option String) (ts : String) (h1 : st ≠ "in_progress") :
    workitem_error (update_workitem_status db wid jid st err ts) wid jid =
      (workitem_error db wid jid).map (fun _ => err) := by
  unfold workitem_error update_workitem_status
  split_ifs with h2 h3 <;> first
  | exact absurd h2 h1
  | cases hf : findAssoc db.workitems (wid, jid) <;>
      simp [findAssoc_updAssoc_self, hf]

theorem keysOf_update_workitem_status (db : DB) (wid jid st : String)
    (err : Option String) (ts : String) :
    keysOf (update_workitem_status db wid jid st err ts).workitems =
      keysOf db.workitems := by
  unfold update_workitem_status
  split_ifs <;> simp [keysOf_updAssoc]

theorem findAssoc_update_workitem_status_some (db : DB) (wid jid st : String)
    (err : Option String) (ts : String) (r : WorkItemRow)
    (hf : findAssoc db.workitems (wid, jid) = some r) :
    ∃ r', findAssoc (update_workitem_status db wid jid st err ts).workitems
      (wid, jid) = some r' := by
  unfold update_workitem_status
  split_ifs <;> exact ⟨_, by rw [findAssoc_updAssoc_self, hf]; rfl⟩

theorem files_update_workitem_file_count (db : DB) (wid jid : String) (n : Nat) :
    (update_workitem_file_count db wid jid n).files = db.files := rfl

theorem workitem_total_update_file_count (db : DB) (wid jid : String) (n : Nat) :
    workitem_total (update_workitem_file_count db wid jid n) wid jid =
      (workitem_total db wid jid).map (fun _ => n) := by
  unfold workitem_total update_workitem_file_count
  cases hf : findAssoc db.workitems (wid, jid) <;>
    simp [findAssoc_updAssoc_self, hf]

theorem workitem_processed_update_file_count (db : DB) (wid jid : String) (n : Nat) :
    workitem_processed (update_workitem_file_count db wid jid n) wid jid =
      workitem_processed db wid jid := by
  unfold workitem_processed update_workitem_file_count
  cases hf : findAssoc db.workitems (wid, jid) <;>
    simp [findAssoc_updAssoc_self, hf]

theorem get_workitem_status_update_file_count (db : DB) (wid jid : String) (n : Nat) :
    get_workitem_status (update_workitem_file_count db wid jid n) wid jid =
      get_workitem_status db wid jid := by
  unfold get_workitem_status update_workitem_file_count
  cases hf : findAssoc db.workitems (wid, jid) <;>
    simp [findAssoc_updAssoc_self, hf]

theorem findAssoc_update_file_count_some (db : DB) (wid jid : String) (n : Nat)
    (r : WorkItemRow) (hf : findAssoc db.workitems (wid, jid) = some r) :
    findAssoc (update_workitem_file_count db wid jid n).workitems (wid, jid) =
      some { r with files_total := n } := by
  unfold update_workitem_file_count
  simp [findAssoc_updAssoc_self, hf]

theorem workitems_add_file (db : DB) (w j f u : String) :
    (add_file db w j f u).workitems = db.workitems := rfl

theorem get_file_status_add_file_self (db : DB) (w j f u : String) :
    get_file_status (add_file db w j f u) w j f =
      some (((findAssoc db.files (w, j, f)).map (·.status)).getD "pending") := by
  unfold get_file_status add_file
  rw [findAssoc_insAssoc_self]
  cases hf : findAssoc db.files (w, j, f) <;> simp [hf]

theorem findAssoc_add_file_ne (db : DB) (w j f u : String)
    (k' : String × String × String) (hne : k' ≠ (w, j, f)) :
    findAssoc (add_file db w j f u).files k' = findAssoc db.files k' := by
  unfold add_file
  exact findAssoc_insAssoc_ne db.files (w, j, f) k'
    { source_uri := u, status := "pending", error_message := none,
      uploaded_at := none } hne

theorem keysOf_add_file_nodup (db : DB) (w j f u : String)
    (h : (keysOf db.files).Nodup) : (keysOf (add_file db w j f u).files).Nodup := by
  unfold add_file
  exact keysOf_insAssoc_nodup db.files (w, j, f)
    { source_uri := u, status := "pending", error_message := none,
      uploaded_at := none } h

theorem claim_file_workitems (db : DB) (w j f ts : String) :
    ((claim_file db w j f ts).2).workitems = db.workitems := rfl

theorem keysOf_claim_file (db : DB) (w j f ts : String) :
    keysOf ((claim_file db w j f ts).2).files = keysOf db.files := by
  unfold claim_file
  exact keysOf_updAssocIf db.files (w, j, f) claimCond
    (fun r => { r with status := "in_progress", error_message := none,
                       uploaded_at := some ts })

theorem claim_file_ret_true (db : DB) (w j f ts : String) (r : FileRow)
    (hnd : (keysOf db.files).Nodup) (hr : findAssoc db.files (w, j, f) = some r)
    (hc : claimCond r = true) : (claim_file db w j f ts).1 = true := by
  unfold claim_file
  simp only [countMatch_eq_of_nodup db.files (w, j, f) claimCond hnd, hr, hc]
  rfl

theorem claim_file_status_self (db : DB) (w j f ts : String) (r : FileRow)
    (hr : findAssoc db.files (w, j, f) = some r) :
    get_file_status ((claim_file db w j f ts).2) w j f =
      some (if claimCond r = true then "in_progress" else r.status) := by
  unfold get_file_status claim_file
  rw [findAssoc_updAssocIf_self, hr]
  by_cases hc : claimCond r = true <;> simp [hc]

theorem claim_file_ne (db : DB) (w j f ts : String)
    (k' : String × String × String) (hne : k' ≠ (w, j, f)) :
    findAssoc ((claim_file db w j f ts).2).files k' = findAssoc db.files k' := by
  unfold claim_file
  exact findAssoc_updAssocIf_ne db.files (w, j, f) k' claimCond
    (fun r => { r with status := "in_progress", error_message := none,
                       uploaded_at := some ts }) hne

theorem claim_file_noop (db : DB) (w j f ts : String)
    (hnd : (keysOf db.files).Nodup)
    (hfail : findAssoc db.files (w, j, f) = none ∨
      ∃ r, findAssoc db.files (w, j, f) = some r ∧ claimCond r = false) :
    claim_file db w j f ts = (false, db) := by
  unfold claim_file
  have h1 : countMatch db.files (w, j, f) claimCond = 0 := by
    rw [countMatch_eq_of_nodup db.files (w, j, f) claimCond hnd]
    rcases hfail with hn | ⟨r, hr, hcr⟩
    · simp [hn]
    · simp [hr, hcr]
  have h2 : updAssocIf db.files (w, j, f) claimCond
      (fun r => { r with status := "in_progress", error_message := none,
                         uploaded_at := some ts }) = db.files :=
    updAssocIf_id _ _ _ _ hnd hfail
  simp [h1, h2]

theorem files_update_file_status (db : DB) (w j f st : String)
    (err : Option String) (ts : String) :
    (update_file_status db w j f st err ts).files =
      updAssoc db.files (w, j, f)
        (fun r => { r with status := st, error_message := err,
                           uploaded_at := some ts }) := by
  unfold update_file_status
  split_ifs <;> rfl

theorem get_file_status_update_file_status_self (db : DB) (w j f st : String)
    (err : Option String) (ts : String) :
    get_file_status (update_file_status db w j f st err ts) w j f =
      (get_file_status db w j f).map (fun _ => st) := by
  unfold get_file_status
  rw [files_update_file_status, findAssoc_updAssoc_self]
  cases hf : findAssoc db.files (w, j, f) <;> simp [hf]

theorem findAssoc_update_file_status_ne (db : DB) (w j f st : String)
    (err : Option String) (ts : String) (k' : String × String × String)
    (hne : k' ≠ (w, j, f)) :
    findAssoc (update_file_status db w j f st err ts).files k' =
      findAssoc db.files k' := by
  rw [files_update_file_status]
  exact findAssoc_updAssoc_ne _ _ _ _ hne

theorem keysOf_files_update_file_status (db : DB) (w j f st : String)
    (err : Option String) (ts : String) :
    keysOf (update_file_status db w j f st err ts).files = keysOf db.files := by
  rw [files_update_file_status]
  exact keysOf_updAssoc _ _ _

theorem workitems_update_file_status_completed (db : DB) (w j f : String)
    (err : Option String) (ts : String) :
    (update_file_status db w j f "completed" err ts).workitems =
      updAssoc db.workitems (w, j)
        (fun r => { r with files_processed := r.files_processed + 1 }) := by
  unfold update_file_status
  rfl

theorem workitems_update_file_status_other (db : DB) (w j f st : String)
    (err : Option String) (ts : String) (h : st ≠ "completed") :
    (update_file_status db w j f st err ts).workitems = db.workitems := by
  unfold update_file_status
  simp [h]

theorem workitem_processed_update_file_status (db : DB) (w j f st : String)
    (err : Option String) (ts : String) :
    workitem_processed (update_file_status db w j f st err ts) w j =
      (workitem_processed db w j).map
        (fun p => if st = "completed" then p + 1 else p) := by
  by_cases h : st = "completed"
  · subst h
    unfold workitem_processed
    rw [workitems_update_file_status_completed, findAssoc_updAssoc_self]
    cases hf : findAssoc db.workitems (w, j) <;> simp [hf]
  · unfold workitem_processed
    rw [workitems_update_file_status_other db w j f st err ts h]
    cases hf : findAssoc db.workitems (w, j) <;> simp [hf, h]

theorem workitem_total_update_file_status (db : DB) (w j f st : String)
    (err : Option String) (ts : String) :
    workitem_total (update_file_status db w j f st err ts) w j =
      workitem_total db w j := by
  by_cases h : st = "completed"
  · subst h
    unfold workitem_total
    rw [workitems_update_file_status_completed, findAssoc_updAssoc_self]
    cases hf : findAssoc db.workitems (w, j) <;> simp [hf]
  · unfold workitem_total
    rw [workitems_update_file_status_other db w j f st err ts h]

theorem findAssoc_update_file_status_wi_some (db : DB) (w j f st : String)
    (err : Option String) (ts : String) (r : WorkItemRow)
    (hf : findAssoc db.workitems (w, j) = some r) :
    ∃ r', findAssoc (update_file_status db w j f st err ts).workitems (w, j) =
      some r' := by
  by_cases h : st = "completed"
  · subst h
    rw [workitems_update_file_status_completed, findAssoc_updAssoc_self, hf]
    exact ⟨_, rfl⟩
  · rw [workitems_update_file_status_other db w j f st err ts h]
    exact ⟨r, hf⟩

/-! ### Preservation of completed file rows -/

theorem completedPreserved_refl (db : DB) : completedPreserved db db :=
  fun _ _ _ h => h

theorem completedPreserved_trans {db1 db2 db3 : DB}
    (h12 : completedPreserved db1 db2) (h23 : completedPreserved db2 db3) :
    completedPreserved db1 db3 :=
  fun w j fn h => h23 w j fn (h12 w j fn h)

theorem completedPreserved_update_workitem_status (db : DB) (wid jid st : String)
    (err : Option String) (ts : String) :
    completedPreserved db (update_workitem_status db wid jid st err ts) :=
  fun _ _ _ h => h

theorem completedPreserved_update_workitem_file_count (db : DB) (wid jid : String)
    (n : Nat) : completedPreserved db (update_workitem_file_count db wid jid n) :=
  fun _ _ _ h => h

theorem add_file_id (db : DB) (w j f u : String)
    (h : (findAssoc db.files (w, j, f)).isSome = true) : add_file db w j f u = db := by
  unfold add_file insAssoc
  simp [h]

theorem findAssoc_add_file_present (db : DB) (w j f u : String)
    (k' : String × String × String) (hp : (findAssoc db.files k').isSome = true) :
    findAssoc (add_file db w j f u).files k' = findAssoc db.files k' := by
  by_cases hs : (findAssoc db.files (w, j, f)).isSome = true
  · rw [add_file_id db w j f u hs]
  · have hs' : (findAssoc db.files (w, j, f)).isSome = false :=
      Bool.eq_false_iff.mpr hs
    unfold add_file insAssoc
    simp only [hs', Bool.false_eq_true, if_false]
    show findAssoc (db.files ++ [((w, j, f), _)]) k' = findAssoc db.files k'
    rw [findAssoc_append]
    cases hf : findAssoc db.files k' with
    | none => rw [hf] at hp; simp at hp
    | some r => rfl

theorem completedPreserved_add_file (db : DB) (w j f u : String) :
    completedPreserved db (add_file db w j f u) := by
  intro w' j' fn h
  unfold get_file_status at h ⊢
  have hp : (findAssoc db.files (w', j', fn)).isSome = true := by
    cases hf : findAssoc db.files (w', j', fn) with
    | none => rw [hf] at h; simp at h
    | some r => rfl
  rw [findAssoc_add_file_present db w j f u _ hp]
  exact h

theorem completedPreserved_claim_file (db : DB) (w j f ts : String) :
    completedPreserved db ((claim_file db w j f ts).2) := by
  intro w' j' fn h
  by_cases hk : (w', j', fn) = (w, j, f)
  · have hw : w' = w := congrArg (fun p => p.1) hk
    have hj : j' = j := congrArg (fun p => p.2.1) hk
    have hfn : fn = f := congrArg (fun p => p.2.2) hk
    subst hw; subst hj; subst hfn
    unfold get_file_status at h
    cases hfr : findAssoc db.files (w', j', fn) with
    | none => rw [hfr] at h; simp at h
    | some r =>
        rw [hfr] at h
        simp only [Option.map_some', Option.some.injEq] at h
        have hc : claimCond r = false := by simp [claimCond, h]
        rw [claim_file_status_self db w' j' fn ts r hfr]
        simp [hc, h]
  · unfold get_file_status at h ⊢
    rw [claim_file_ne db w j f ts _ hk]
    exact h

theorem completedPreserved_update_file_status (db : DB) (w j f st : String)
    (err : Option String) (ts : String)
    (h : get_file_status db w j f ≠ some "completed") :
    completedPreserved db (update_file_status db w j f st err ts) := by
  intro w' j' fn hc
  by_cases hk : (w', j', fn) = (w, j, f)
  · have hw : w' = w := congrArg (fun p => p.1) hk
    have hj : j' = j := congrArg (fun p => p.2.1) hk
    have hfn : fn = f := congrArg (fun p => p.2.2) hk
    subst hw; subst hj; subst hfn
    exact absurd hc h
  · unfold get_file_status at hc ⊢
    rw [findAssoc_update_file_status_ne db w j f st err ts _ hk]
    exact hc

theorem findAssoc_add_file_self (db : DB) (w j f u : String) :
    findAssoc (add_file db w j f u).files (w, j, f) =
      some ((findAssoc db.files (w, j, f)).getD
        { source_uri := u, status := "pending", error_message := none,
          uploaded_at := none }) := by
  unfold add_file
  exact findAssoc_insAssoc_self db.files (w, j, f)
    { source_uri := u, status := "pending", error_message := none,
      uploaded_at := none }

theorem claimable_some (s : String) :
    claimable (some s) = (s == "pending" || s == "failed") := by
  simp [claimable]

theorem claimCond_eq_claimable (r : FileRow) :
    claimCond r = claimable (some r.status) := by
  rw [claimable_some]; rfl

theorem claimStep_spec (wid jid ts : String) (f : FileMetadata) (db : DB)
    (acc : List FileMetadata) (hnd : (keysOf db.files).Nodup) :
    (claimStep wid jid ts (db, acc) f).1.workitems = db.workitems ∧
    (keysOf (claimStep wid jid ts (db, acc) f).1.files).Nodup ∧
    (claimStep wid jid ts (db, acc) f).2 = acc ++
      (if claimable (get_file_status db wid jid f.filename) = true then [f]
       else []) ∧
    (claimable (get_file_status db wid jid f.filename) = true →
      get_file_status (claimStep wid jid ts (db, acc) f).1 wid jid f.filename =
        some "in_progress") ∧
    (∀ k', k' ≠ (wid, jid, f.filename) →
      findAssoc (claimStep wid jid ts (db, acc) f).1.files k' =
        findAssoc db.files k') ∧
    completedPreserved db (claimStep wid jid ts (db, acc) f).1 := by
  cases hold : findAssoc db.files (wid, jid, f.filename) with
  | none =>
      have hgf : get_file_status db wid jid f.filename = none := by
        unfold get_file_status; rw [hold]; rfl
      have hcl : claimable (get_file_status db wid jid f.filename) = true := by
        rw [hgf]; rfl
      have hrow : findAssoc (add_file db wid jid f.filename f.source_uri).files
          (wid, jid, f.filename) =
          some { source_uri := f.source_uri, status := "pending",
                 error_message := none, uploaded_at := none } := by
        rw [findAssoc_add_file_self, hold]; rfl
      have hnd' : (keysOf (add_file db wid jid f.filename f.source_uri).files).Nodup :=
        keysOf_add_file_nodup db wid jid f.filename f.source_uri hnd
      have hgfa : get_file_status (add_file db wid jid f.filename f.source_uri)
          wid jid f.filename = some "pending" := by
        unfold get_file_status; rw [hrow]; rfl
      have hne_completed :
          ¬get_file_status (add_file db wid jid f.filename f.source_uri)
            wid jid f.filename = some "completed" := by
        rw [hgfa]; intro hcon; simp at hcon
      have hclaim :
          (claim_file (add_file db wid jid f.filename f.source_uri)
            wid jid f.filename ts).1 = true :=
        claim_file_ret_true _ wid jid f.filename ts _ hnd' hrow rfl
      have hstep : claimStep wid jid ts (db, acc) f =
          ((claim_file (add_file db wid jid f.filename f.source_uri)
             wid jid f.filename ts).2, acc ++ [f]) := by
        simp only [claimStep]
        rw [if_neg hne_completed, hclaim]
        simp
      rw [hstep]
      refine ⟨?_, ?_, ?_, ?_, ?_, ?_⟩
      · rw [claim_file_workitems]; rfl
      · rw [keysOf_claim_file]; exact hnd'
      · rw [hcl]; simp
      · intro _
        rw [claim_file_status_self _ wid jid f.filename ts _ hrow]
        rfl
      · intro k' hk
        rw [claim_file_ne _ wid jid f.filename ts _ hk,
          findAssoc_add_file_ne db wid jid f.filename f.source_uri _ hk]
      · exact completedPreserved_trans
          (completedPreserved_add_file db wid jid f.filename f.source_uri)
          (completedPreserved_claim_file _ wid jid f.filename ts)
  | some r =>
      have hdba : add_file db wid jid f.filename f.source_uri = db :=
        add_file_id db wid jid f.filename f.source_uri (by rw [hold]; rfl)
      have hgf : get_file_status db wid jid f.filename = some r.status := by
        unfold get_file_status; rw [hold]; rfl
      by_cases hcs : r.status = "completed"
      · have hstep : claimStep wid jid ts (db, acc) f = (db, acc) := by
          simp only [claimStep]
          rw [hdba, if_pos (by rw [hgf, hcs])]
        have hcl : claimable (get_file_status db wid jid f.filename) = false := by
          rw [hgf, claimable_some, hcs]; rfl
        rw [hstep]
        refine ⟨rfl, hnd, by rw [hcl]; simp, ?_, fun _ _ => rfl,
          completedPreserved_refl db⟩
        intro hcon
        rw [hcl] at hcon
        cases hcon
      · have hne_completed : ¬get_file_status db wid jid f.filename =
            some "completed" := by
          rw [hgf]
          intro hcon
          exact hcs (Option.some.injEq _ _ ▸ hcon)
        by_cases hcc : claimCond r = true
        · have hclaim : (claim_file db wid jid f.filename ts).1 = true :=
            claim_file_ret_true db wid jid f.filename ts r hnd hold hcc
          have hstep : claimStep wid jid ts (db, acc) f =
              ((claim_file db wid jid f.filename ts).2, acc ++ [f]) := by
            simp only [claimStep]
            rw [hdba, if_neg hne_completed, hclaim]
            simp
          have hcl : claimable (get_file_status db wid jid f.filename) = true := by
            rw [hgf, ← claimCond_eq_claimable]; exact hcc
          rw [hstep]
          refine ⟨rfl, ?_, by rw [hcl]; simp, ?_, ?_, ?_⟩
          · rw [keysOf_claim_file]; exact hnd
          · intro _
            rw [claim_file_status_self db wid jid f.filename ts r hold, if_pos hcc]
          · intro k' hk
            exact claim_file_ne db wid jid f.filename ts _ hk
          · exact completedPreserved_claim_file db wid jid f.filename ts
        · have hccf : claimCond r = false := Bool.eq_false_iff.mpr hcc
          have hnoop : claim_file db wid jid f.filename ts = (false, db) :=
            claim_file_noop db wid jid f.filename ts hnd
              (Or.inr ⟨r, hold, hccf⟩)
          have hstep : claimStep wid jid ts (db, acc) f = (db, acc) := by
            simp only [claimStep]
            rw [hdba, if_neg hne_completed, hnoop]
            simp
          have hcl : claimable (get_file_status db wid jid f.filename) = false := by
            rw [hgf, ← claimCond_eq_claimable]; exact hccf
          rw [hstep]
          refine ⟨rfl, hnd, by rw [hcl]; simp, ?_, fun _ _ => rfl,
            completedPreserved_refl db⟩
          intro hcon
          rw [hcl] at hcon
          cases hcon

theorem claimLoop_fold_spec (wid jid ts : String) (u : List FileMetadata) :
    ∀ (db : DB) (acc : List FileMetadata), (keysOf db.files).Nodup →
    (u.map (fun f => f.filename)).Nodup →
    (u.foldl (claimStep wid jid ts) (db, acc)).1.workitems = db.workitems ∧
    (keysOf (u.foldl (claimStep wid jid ts) (db, acc)).1.files).Nodup ∧
    (u.foldl (claimStep wid jid ts) (db, acc)).2 = acc ++
      u.filter (fun f => claimable (get_file_status db wid jid f.filename)) ∧
    (∀ f ∈ u, claimable (get_file_status db wid jid f.filename) = true →
      get_file_status (u.foldl (claimStep wid jid ts) (db, acc)).1 wid jid
        f.filename = some "in_progress") ∧
    (∀ k', (∀ g ∈ u, k' ≠ (wid, jid, g.filename)) →
      findAssoc (u.foldl (claimStep wid jid ts) (db, acc)).1.files k' =
        findAssoc db.files k') ∧
    completedPreserved db (u.foldl (claimStep wid jid ts) (db, acc)).1 := by
  induction u with
  | nil =>
      intro db acc hnd _
      exact ⟨rfl, hnd, by simp, by simp, fun _ _ => rfl, completedPreserved_refl db⟩
  | cons f rest ih =>
      intro db acc hnd hfn
      simp only [List.map_cons, List.nodup_cons] at hfn
      obtain ⟨hfmem, hfrest⟩ := hfn
      obtain ⟨s1wi, s1nd, s1acc, s1prog, s1frame, s1pres⟩ :=
        claimStep_spec wid jid ts f db acc hnd
      set s := claimStep wid jid ts (db, acc) f with hs
      have hkey_ne : ∀ g ∈ rest, (wid, jid, g.filename) ≠ (wid, jid, f.filename) := by
        intro g hg hcon
        have heq : g.filename = f.filename := congrArg (fun p => p.2.2) hcon
        exact hfmem (List.mem_map.mpr ⟨g, hg, heq⟩)
      have hstatus_rest : ∀ g ∈ rest,
          get_file_status s.1 wid jid g.filename =
            get_file_status db wid jid g.filename := by
        intro g hg
        unfold get_file_status
        rw [s1frame _ (hkey_ne g hg)]
      obtain ⟨r1wi, r1nd, r1acc, r1prog, r1frame, r1pres⟩ :=
        ih s.1 s.2 s1nd hfrest
      have hfold : (f :: rest).foldl (claimStep wid jid ts) (db, acc) =
          rest.foldl (claimStep wid jid ts) s := by
        rw [List.foldl_cons]
      refine ⟨?_, ?_, ?_, ?_, ?_, ?_⟩
      · rw [hfold]
        have : (rest.foldl (claimStep wid jid ts) (s.1, s.2)).1.workitems =
            s.1.workitems := r1wi
        rw [← s1wi]
        exact this
      · rw [hfold]
        simpa using r1nd
      · rw [hfold]
        have : (rest.foldl (claimStep wid jid ts) (s.1, s.2)).2 = s.2 ++
            rest.filter (fun g =>
              claimable (get_file_status s.1 wid jid g.filename)) := r1acc
        have hfilter : rest.filter (fun g =>
              claimable (get_file_status s.1 wid jid g.filename)) =
            rest.filter (fun g =>
              claimable (get_file_status db wid jid g.filename)) := by
          apply List.filter_congr
          intro g hg
          rw [hstatus_rest g hg]
        rw [List.filter_cons]
        rw [show (rest.foldl (claimStep wid jid ts) s) =
          (rest.foldl (claimStep wid jid ts) (s.1, s.2)) from rfl]
        rw [this, hfilter, s1acc]
        by_cases hp : claimable (get_file_status db wid jid f.filename) = true
        · simp [hp, List.append_assoc]
        · simp [hp, Bool.eq_false_iff.mpr hp, List.append_assoc]
      · intro g hg hclg
        rw [hfold]
        rcases List.mem_cons.mp hg with hgf | hgr
        · subst hgf
          have hprog := s1prog hclg
          have : get_file_status (rest.foldl (claimStep wid jid ts) (s.1, s.2)).1
              wid jid g.filename = get_file_status s.1 wid jid g.filename := by
            unfold get_file_status
            rw [r1frame _ (fun g' hg' => (hkey_ne g' hg').symm)]
          rw [show (rest.foldl (claimStep wid jid ts) s) =
            (rest.foldl (claimStep wid jid ts) (s.1, s.2)) from rfl]
          rw [this, hprog]
        · have hclg' : claimable (get_file_status s.1 wid jid g.filename) = true := by
            rw [hstatus_rest g hgr]; exact hclg
          have := r1prog g hgr hclg'
          rw [show (rest.foldl (claimStep wid jid ts) s) =
            (rest.foldl (claimStep wid jid ts) (s.1, s.2)) from rfl]
          exact this
      · intro k' hk
        rw [hfold]
        have h1 : findAssoc (rest.foldl (claimStep wid jid ts) (s.1, s.2)).1.files
            k' = findAssoc s.1.files k' :=
          r1frame k' (fun g hg => hk g (List.mem_cons_of_mem f hg))
        have h2 : findAssoc s.1.files k' = findAssoc db.files k' :=
          s1frame k' (hk f (List.mem_cons_self f rest))
        rw [show (rest.foldl (claimStep wid jid ts) s) =
          (rest.foldl (claimStep wid jid ts) (s.1, s.2)) from rfl]
        rw [h1, h2]
      · rw [hfold]
        rw [show (rest.foldl (claimStep wid jid ts) s) =
          (rest.foldl (claimStep wid jid ts) (s.1, s.2)) from rfl]
        exact completedPreserved_trans s1pres r1pres

theorem drainFiles_no_shutdown (wid jid : String) (env : Env)
    (hsd : ∀ k, env.shutdownDuring k = false) :
    ∀ (C : List FileMetadata) (k : Nat) (db : DB) (failed : List String)
      (r : WorkItemRow),
    findAssoc db.workitems (wid, jid) = some r →
    ∃ r', findAssoc (drainFiles wid jid env k db C failed).2.workitems
        (wid, jid) = some r' ∧
      r'.files_processed = r.files_processed +
        C.countP (fun f => (env.transfer f).1) ∧
      r'.files_total = r.files_total ∧
      r'.status = (if (failed.isEmpty && C.all (fun f => (env.transfer f).1)) =
        true then "completed" else "failed") ∧
      (drainFiles wid jid env k db C failed).1 =
        (failed.isEmpty && C.all (fun f => (env.transfer f).1)) := by
  intro C
  induction C with
  | nil =>
      intro k db failed r hr
      by_cases hfe : failed.isEmpty = true
      · refine ⟨{ r with status := "completed", completed_at := some env.ts, error_message := none }, ?_, by simp, by simp, by simp [hfe], by simp [drainFiles, hfe]⟩
        simp only [drainFiles, hfe, if_true]
        simp [update_workitem_status, findAssoc_updAssoc_self, hr]
      · have hfe' : failed.isEmpty = false := Bool.eq_false_iff.mpr hfe
        refine ⟨{ r with status := "failed", completed_at := some env.ts, error_message := some (failMsg failed) }, ?_, by simp, by simp, by simp [hfe'], by simp [drainFiles, hfe']⟩
        simp only [drainFiles, hfe', Bool.false_eq_true, if_false]
        simp [update_workitem_status, findAssoc_updAssoc_self, hr]
  | cons f rest ih =>
      intro k db failed r hr
      have hk := hsd k
      by_cases ht : (env.transfer f).1 = true
      · have hdrain : drainFiles wid jid env k db (f :: rest) failed =
            drainFiles wid jid env (k + 1)
              (update_file_status db wid jid f.filename "completed" none env.ts)
              rest failed := by
          simp only [drainFiles, hk, Bool.false_eq_true, if_false, ht, if_true]
        have hr1 : findAssoc (update_file_status db wid jid f.filename
            "completed" none env.ts).workitems (wid, jid) =
            some { r with files_processed := r.files_processed + 1 } := by
          rw [workitems_update_file_status_completed, findAssoc_updAssoc_self, hr]
          rfl
        obtain ⟨r', hfind, hproc, htot, hstat, hret⟩ :=
          ih (k + 1) _ failed _ hr1
        refine ⟨r', by rw [hdrain]; exact hfind, ?_, by exact htot, ?_, ?_⟩
        · rw [hproc]
          simp only [List.countP_cons, ht]
          simp
          omega
        · rw [hstat]
          simp [ht]
        · rw [hdrain, hret]
          simp [ht]
      · have ht' : (env.transfer f).1 = false := Bool.eq_false_iff.mpr ht
        have hdrain : drainFiles wid jid env k db (f :: rest) failed =
            drainFiles wid jid env (k + 1)
              (update_file_status db wid jid f.filename "failed"
                (env.transfer f).2 env.ts)
              rest (failed ++ [f.filename]) := by
          simp only [drainFiles, hk, Bool.false_eq_true, if_false, ht',
            if_true]
        have hr1 : findAssoc (update_file_status db wid jid f.filename
            "failed" (env.transfer f).2 env.ts).workitems (wid, jid) =
            some r := by
          rw [workitems_update_file_status_other db wid jid f.filename "failed"
            (env.transfer f).2 env.ts (by decide)]
          exact hr
        obtain ⟨r', hfind, hproc, htot, hstat, hret⟩ :=
          ih (k + 1) _ (failed ++ [f.filename]) _ hr1
        refine ⟨r', by rw [hdrain]; exact hfind, ?_, by exact htot, ?_, ?_⟩
        · rw [hproc]
          simp [List.countP_cons, ht']
        · rw [hstat]
          simp [ht']
        · rw [hdrain, hret]
          simp [ht']

theorem drainFiles_shutdown (wid jid : String) (env : Env) :
    ∀ (C : List FileMetadata) (k : Nat) (db : DB) (failed : List String)
      (r : WorkItemRow),
    findAssoc db.workitems (wid, jid) = some r →
    (C.map (fun f => f.filename)).Nodup →
    (∀ f ∈ C, get_file_status db wid jid f.filename = some "in_progress") →
    (∃ j, j < C.length ∧ env.shutdownDuring (k + j) = true) →
    (drainFiles wid jid env k db C failed).1 = false ∧
    get_workitem_status (drainFiles wid jid env k db C failed).2 wid jid =
      some "pending" ∧
    workitem_error (drainFiles wid jid env k db C failed).2 wid jid =
      some (some "Shutdown requested mid-processing") ∧
    completedPreserved db (drainFiles wid jid env k db C failed).2 := by
  intro C
  induction C with
  | nil =>
      intro k db failed r hr _ _ hj
      obtain ⟨j, hj0, _⟩ := hj
      exact absurd hj0 (by simp)
  | cons f rest ih =>
      intro k db failed r hr hnodup hprog hj
      simp only [List.map_cons, List.nodup_cons] at hnodup
      by_cases hk : env.shutdownDuring k = true
      · have hdrain : drainFiles wid jid env k db (f :: rest) failed =
            (false, update_workitem_status db wid jid "pending"
              (some "Shutdown requested mid-processing") env.ts) := by
          simp only [drainFiles, hk, if_true]
        rw [hdrain]
        refine ⟨rfl, ?_, ?_, ?_⟩
        · rw [get_workitem_status_update_self]
          unfold get_workitem_status
          rw [hr]
          rfl
        · rw [workitem_error_update_status db wid jid "pending" _ env.ts
            (by decide)]
          unfold workitem_error
          rw [hr]
          rfl
        · exact completedPreserved_update_workitem_status db wid jid "pending"
            (some "Shutdown requested mid-processing") env.ts
      · have hk' : env.shutdownDuring k = false := Bool.eq_false_iff.mpr hk
        obtain ⟨j, hjlt, hjt⟩ := hj
        have hj0 : j ≠ 0 := by
          intro hz
          subst hz
          rw [Nat.add_zero] at hjt
          exact hk hjt
        have hj' : ∃ j', j' < rest.length ∧
            env.shutdownDuring (k + 1 + j') = true := by
          refine ⟨j - 1, ?_, ?_⟩
          · simp only [List.length_cons] at hjlt
            omega
          · have : k + 1 + (j - 1) = k + j := by omega
            rw [this]
            exact hjt
        have hprog_f : get_file_status db wid jid f.filename =
            some "in_progress" := hprog f (List.mem_cons_self f rest)
        have hnotc : get_file_status db wid jid f.filename ≠ some "completed" := by
          rw [hprog_f]
          intro hcon
          simp at hcon
        by_cases ht : (env.transfer f).1 = true
        · have hdrain : drainFiles wid jid env k db (f :: rest) failed =
              drainFiles wid jid env (k + 1)
                (update_file_status db wid jid f.filename "completed" none env.ts)
                rest failed := by
            simp only [drainFiles, hk', Bool.false_eq_true, if_false, ht, if_true]
          set db1 := update_file_status db wid jid f.filename "completed" none
            env.ts with hdb1
          have hr1 : ∃ r1, findAssoc db1.workitems (wid, jid) = some r1 :=
            findAssoc_update_file_status_wi_some db wid jid f.filename
              "completed" none env.ts r hr
          obtain ⟨r1, hr1⟩ := hr1
          have hprog1 : ∀ g ∈ rest, get_file_status db1 wid jid g.filename =
              some "in_progress" := by
            intro g hg
            have hne : (wid, jid, g.filename) ≠ (wid, jid, f.filename) := by
              intro hcon
              exact hnodup.1 (List.mem_map.mpr
                ⟨g, hg, congrArg (fun p => p.2.2) hcon⟩)
            unfold get_file_status
            rw [findAssoc_update_file_status_ne db wid jid f.filename
              "completed" none env.ts _ hne]
            exact hprog g (List.mem_cons_of_mem f hg)
          obtain ⟨c1, c2, c3, c4⟩ :=
            ih (k + 1) db1 failed r1 hr1 hnodup.2 hprog1 hj'
          rw [hdrain]
          exact ⟨c1, c2, c3, completedPreserved_trans
            (completedPreserved_update_file_status db wid jid f.filename
              "completed" none env.ts hnotc) c4⟩
        · have ht' : (env.transfer f).1 = false := Bool.eq_false_iff.mpr ht
          have hdrain : drainFiles wid jid env k db (f :: rest) failed =
              drainFiles wid jid env (k + 1)
                (update_file_status db wid jid f.filename "failed"
                  (env.transfer f).2 env.ts)
                rest (failed ++ [f.filename]) := by
            simp only [drainFiles, hk', Bool.false_eq_true, if_false, ht',
              if_true]
          set db1 := update_file_status db wid jid f.filename "failed"
            (env.transfer f).2 env.ts with hdb1
          have hr1 : ∃ r1, findAssoc db1.workitems (wid, jid) = some r1 :=
            findAssoc_update_file_status_wi_some db wid jid f.filename
              "failed" (env.transfer f).2 env.ts r hr
          obtain ⟨r1, hr1⟩ := hr1
          have hprog1 : ∀ g ∈ rest, get_file_status db1 wid jid g.filename =
              some "in_progress" := by
            intro g hg
            have hne : (wid, jid, g.filename) ≠ (wid, jid, f.filename) := by
              intro hcon
              exact hnodup.1 (List.mem_map.mpr
                ⟨g, hg, congrArg (fun p => p.2.2) hcon⟩)
            unfold get_file_status
            rw [findAssoc_update_file_status_ne db wid jid f.filename
              "failed" (env.transfer f).2 env.ts _ hne]
            exact hprog g (List.mem_cons_of_mem f hg)
          obtain ⟨c1, c2, c3, c4⟩ :=
            ih (k + 1) db1 (failed ++ [f.filename]) r1 hr1 hnodup.2 hprog1 hj'
          rw [hdrain]
          exact ⟨c1, c2, c3, completedPreserved_trans
            (completedPreserved_update_file_status db wid jid f.filename
              "failed" (env.transfer f).2 env.ts hnotc) c4⟩

/-! ### De-duplication lemmas -/

theorem dedupe_fold_nodup (files : List FileMetadata) :
    ∀ acc : List FileMetadata,
    ((acc.map (fun f => basename f.filename)).Nodup) →
    (((files.foldl
        (fun acc f =>
          if acc.any (fun g => basename g.filename == basename f.filename)
          then acc else acc ++ [f]) acc)).map
      (fun f => basename f.filename)).Nodup := by
  induction files with
  | nil => intro acc h; exact h
  | cons f rest ih =>
      intro acc h
      rw [List.foldl_cons]
      by_cases ha : acc.any (fun g => basename g.filename == basename f.filename) = true
      · rw [if_pos ha]
        exact ih acc h
      · rw [if_neg ha]
        apply ih
        have hnm : basename f.filename ∉ acc.map (fun f => basename f.filename) := by
          intro hm
          obtain ⟨g, hg, hbg⟩ := List.mem_map.mp hm
          exact ha (List.any_eq_true.mpr ⟨g, hg, by simp [hbg]⟩)
        simp [List.nodup_append, h, hnm]

theorem dedupeFiles_basenames_nodup (files : List FileMetadata) :
    ((dedupeFiles files).map (fun f => basename f.filename)).Nodup := by
  unfold dedupeFiles
  exact dedupe_fold_nodup files [] (by simp)

theorem dedupeFiles_filenames_nodup (files : List FileMetadata) :
    ((dedupeFiles files).map (fun f => f.filename)).Nodup := by
  have h1 := dedupeFiles_basenames_nodup files
  have h2 : ((dedupeFiles files).map (fun f => f.filename)).map basename =
      (dedupeFiles files).map (fun f => basename f.filename) := by
    rw [List.map_map]
    rfl
  exact List.Nodup.of_map basename (h2 ▸ h1)

theorem claimable_eq_not_completed (st : Option String)
    (hwf : statusWellFormed st) (hip : st ≠ some "in_progress") :
    claimable st = !(st == some "completed") := by
  rcases hwf with h | h | h | h | h
  · subst h; rfl
  · subst h; decide
  · subst h; decide
  · exact absurd h hip
  · subst h; decide

theorem process_workitem_main_path (workitem_id job_id : String) (env : Env)
    (db : DB) (fs : List FileMetadata)
    (hsd1 : env.shutdownAtStart = false)
    (hstat : get_workitem_status db workitem_id job_id ≠ some "completed")
    (hq : env.queryResult = Except.ok fs)
    (hfs : fs ≠ [])
    (hsd2 : env.shutdownBeforeDispatch = false) :
    process_workitem workitem_id job_id env db =
      (if (claimLoop workitem_id job_id env.ts
            (update_workitem_file_count
              (update_workitem_status db workitem_id job_id "in_progress" none
                env.ts)
              workitem_id job_id (dedupeFiles fs).length)
            (dedupeFiles fs)).2.isEmpty = true then
         (true, update_workitem_status
           (claimLoop workitem_id job_id env.ts
             (update_workitem_file_count
               (update_workitem_status db workitem_id job_id "in_progress" none
                 env.ts)
               workitem_id job_id (dedupeFiles fs).length)
             (dedupeFiles fs)).1
           workitem_id job_id "completed" none env.ts)
       else drainFiles workitem_id job_id env 0
         (claimLoop workitem_id job_id env.ts
           (update_workitem_file_count
             (update_workitem_status db workitem_id job_id "in_progress" none
               env.ts)
             workitem_id job_id (dedupeFiles fs).length)
           (dedupeFiles fs)).1
         (claimLoop workitem_id job_id env.ts
           (update_workitem_file_count
             (update_workitem_status db workitem_id job_id "in_progress" none
               env.ts)
             workitem_id job_id (dedupeFiles fs).length)
           (dedupeFiles fs)).2
         []) := by
  have hemp : fs.isEmpty = false := by
    cases fs with
    | nil => exact absurd rfl hfs
    | cons a l => rfl
  simp only [process_workitem, hsd1, Bool.false_eq_true, if_false, hq, hemp,
    hsd2, if_neg hstat]

theorem countP_total {α : Type} (l : List α) (p q : α → Bool)
    (h : ∀ a ∈ l, q a = !(p a)) : l.length = l.countP p + l.countP q := by
  induction l with
  | nil => rfl
  | cons a rest ih =>
      have ha := h a (List.mem_cons_self a rest)
      have hr := ih (fun a ha' => h a (List.mem_cons_of_mem _ ha'))
      simp only [List.countP_cons, List.length_cons]
      cases hp : p a
      · rw [hp] at ha
        simp only [Bool.not_false] at ha
        simp [ha, hp]
        omega
      · rw [hp] at ha
        simp only [Bool.not_true] at ha
        simp [ha, hp]
        omega

/-- C2 (amended): on return from `process_workitem` along the main path
(resolution succeeds with a non-empty list, no shutdown), provided the work
item's stored `files_processed` equals the number of resolved unique files
already recorded `'completed'`, every resolved file's stored status is one of
the tracker statuses, and no resolved file is stranded `'in_progress'`, the
final state satisfies `files_processed ≤ files_total`, and whenever the work
item's status was set to `'completed'` — including the early path that marks
the item completed when nothing was claimed — `files_processed = files_total`. -/
theorem process_workitem_processed_le_total (workitem_id job_id : String)
    (env : Env) (db : DB) (fs : List FileMetadata) (w : WorkItemRow)
    (hwf : db.wf)
    (hrow : findAssoc db.workitems (workitem_id, job_id) = some w)
    (hstat : w.status ≠ "completed")
    (hq : env.queryResult = Except.ok fs)
    (hfs : fs ≠ [])
    (hsd1 : env.shutdownAtStart = false)
    (hsd2 : env.shutdownBeforeDispatch = false)
    (hsd3 : ∀ k, env.shutdownDuring k = false)
    (hwfst : ∀ f ∈ dedupeFiles fs,
      statusWellFormed (get_file_status db workitem_id job_id f.filename))
    (hip : ∀ f ∈ dedupeFiles fs,
      get_file_status db workitem_id job_id f.filename ≠ some "in_progress")
    (hcnt : w.files_processed = (dedupeFiles fs).countP
      (fun f => get_file_status db workitem_id job_id f.filename ==
        some "completed")) :
    procLeTotal (process_workitem workitem_id job_id env db).2 workitem_id
      job_id ∧
    completedImpliesEq (process_workitem workitem_id job_id env db).2
      workitem_id job_id := by
  have hgs : get_workitem_status db workitem_id job_id = some w.status := by
    unfold get_workitem_status
    rw [hrow]
    rfl
  have hgsne : get_workitem_status db workitem_id job_id ≠ some "completed" := by
    rw [hgs]
    intro hcon
    exact hstat (Option.some.injEq _ _ ▸ hcon)
  have hred := process_workitem_main_path workitem_id job_id env db fs hsd1
    hgsne hq hfs hsd2
  set u := dedupeFiles fs with hu
  set db1 := update_workitem_status db workitem_id job_id "in_progress" none
    env.ts with hdb1
  set db2 := update_workitem_file_count db1 workitem_id job_id u.length
    with hdb2
  have hrow1 : findAssoc db1.workitems (workitem_id, job_id) =
      some { w with status := "in_progress", started_at := some env.ts } := by
    rw [hdb1]
    unfold update_workitem_status
    rw [if_pos rfl, findAssoc_updAssoc_self, hrow]
    rfl
  have hrow2 : findAssoc db2.workitems (workitem_id, job_id) =
      some { w with status := "in_progress", started_at := some env.ts, files_total := u.length } := by
    rw [hdb2, findAssoc_update_file_count_some db1 workitem_id job_id u.length
      _ hrow1]
  have hfiles2 : db2.files = db.files := rfl
  have hnd2 : (keysOf db2.files).Nodup := by rw [hfiles2]; exact hwf.2
  have hgfs2 : ∀ fn, get_file_status db2 workitem_id job_id fn =
      get_file_status db workitem_id job_id fn := fun _ => rfl
  obtain ⟨cwi, cnd, cacc, cprog, cframe, cpres⟩ :=
    claimLoop_fold_spec workitem_id job_id env.ts u db2 [] hnd2
      (by rw [hu]; exact dedupeFiles_filenames_nodup fs)
  have hCL : claimLoop workitem_id job_id env.ts db2 u =
      u.foldl (claimStep workitem_id job_id env.ts) (db2, []) := rfl
  set c := claimLoop workitem_id job_id env.ts db2 u with hc
  have hcacc : c.2 = u.filter
      (fun f => claimable (get_file_status db workitem_id job_id f.filename)) := by
    have h0 : c.2 = [] ++ u.filter
        (fun f => claimable (get_file_status db2 workitem_id job_id f.filename)) :=
      cacc
    simpa only [hgfs2, List.nil_append] using h0
  have hcwi : c.1.workitems = db2.workitems := cwi
  have hccount : u.length = u.countP
      (fun f => get_file_status db workitem_id job_id f.filename ==
        some "completed") + c.2.length := by
    have hcong : ∀ f ∈ u,
        claimable (get_file_status db workitem_id job_id f.filename) =
          !(get_file_status db workitem_id job_id f.filename ==
            some "completed") := by
      intro f hf
      exact claimable_eq_not_completed _ (hwfst f hf) (hip f hf)
    have h1 : c.2.length = u.countP
        (fun f => claimable (get_file_status db workitem_id job_id f.filename)) := by
      rw [hcacc, List.countP_eq_length_filter]
    rw [h1]
    exact countP_total u _ _ hcong
  by_cases hCe : c.2.isEmpty = true
  · have hfinal : process_workitem workitem_id job_id env db =
        (true, update_workitem_status c.1 workitem_id job_id "completed" none
          env.ts) := by
      rw [hred, if_pos hCe]
    have hCnil : c.2 = [] := List.isEmpty_iff.mp hCe
    have hlen0 : c.2.length = 0 := by rw [hCnil]; rfl
    have hrowF : findAssoc (update_workitem_status c.1 workitem_id job_id
        "completed" none env.ts).workitems (workitem_id, job_id) =
        some { w with status := "completed", started_at := some env.ts, files_total := u.length, completed_at := some env.ts, error_message := none } := by
      unfold update_workitem_status
      rw [if_neg (by decide), if_pos (Or.inl rfl), findAssoc_updAssoc_self,
        hcwi, hrow2]
      rfl
    rw [hfinal]
    constructor
    · intro r0 h0
      simp only at h0
      rw [hrowF] at h0
      cases h0
      simp only
      omega
    · intro r0 h0 _
      simp only at h0
      rw [hrowF] at h0
      cases h0
      simp only
      omega
  · have hfinal : process_workitem workitem_id job_id env db =
        drainFiles workitem_id job_id env 0 c.1 c.2 [] := by
      rw [hred, if_neg hCe]
    have hrowc : findAssoc c.1.workitems (workitem_id, job_id) =
        some { w with status := "in_progress", started_at := some env.ts, files_total := u.length } := by
      rw [hcwi, hrow2]
    obtain ⟨r', hfind, hproc, htot, hstatF, hret⟩ :=
      drainFiles_no_shutdown workitem_id job_id env hsd3 c.2 0 c.1 [] _ hrowc
    have hproc' : r'.files_processed = w.files_processed +
        c.2.countP (fun f => (env.transfer f).1) := by
      rw [hproc]
    have htot' : r'.files_total = u.length := by
      rw [htot]
    rw [hfinal]
    constructor
    · intro r0 h0
      rw [hfind] at h0
      cases h0
      rw [hproc', htot', hcnt]
      have := List.countP_le_length (fun f => (env.transfer f).1) (l := c.2)
      omega
    · intro r0 h0 hcomp
      rw [hfind] at h0
      cases h0
      rw [hstatF] at hcomp
      simp only [List.isEmpty_nil, Bool.true_and] at hcomp
      by_cases hall : c.2.all (fun f => (env.transfer f).1) = true
      · have hcntall : c.2.countP (fun f => (env.transfer f).1) = c.2.length :=
          List.countP_eq_length.mpr (List.all_eq_true.mp hall)
        rw [hproc', htot', hcnt, hcntall]
        omega
      · rw [if_neg hall] at hcomp
        exact absurd hcomp (by decide)

/-! ### Claim theorems -/

/-- C8: if the work item's stored status is already `'completed'` when
`process_workitem` starts and no shutdown is signaled, the call returns
success immediately and leaves the entire database — every work-item and
file row — unchanged. -/
theorem process_workitem_already_completed (workitem_id job_id : String)
    (env : Env) (db : DB)
    (hsd : env.shutdownAtStart = false)
    (hst : get_workitem_status db workitem_id job_id = some "completed") :
    process_workitem workitem_id job_id env db = (true, db) := by
  simp only [process_workitem, hsd, Bool.false_eq_true, if_false, hst]
  simp

/-- Witness for C8 at a concrete completed work item. -/
theorem process_workitem_already_completed_witness :
    process_workitem "w" "j" envBase dbCompleted = (true, dbCompleted) :=
  process_workitem_already_completed "w" "j" envBase dbCompleted rfl (by decide)

/-- C9 (amended): on a successful empty resolution (and no shutdown, item not
already completed), `process_workitem` sets the work item's status to
`'completed'` and returns success, leaving `files_total` and
`files_processed` unchanged — it does not write `files_total = 0`; a freshly
seeded row therefore shows 0/0. -/
theorem process_workitem_empty_resolution (workitem_id job_id : String)
    (env : Env) (db : DB) (w : WorkItemRow)
    (hrow : findAssoc db.workitems (workitem_id, job_id) = some w)
    (hstat : w.status ≠ "completed")
    (hq : env.queryResult = Except.ok ([] : List FileMetadata))
    (hsd : env.shutdownAtStart = false) :
    (process_workitem workitem_id job_id env db).1 = true ∧
    get_workitem_status (process_workitem workitem_id job_id env db).2
      workitem_id job_id = some "completed" ∧
    workitem_total (process_workitem workitem_id job_id env db).2
      workitem_id job_id = some w.files_total ∧
    workitem_processed (process_workitem workitem_id job_id env db).2
      workitem_id job_id = some w.files_processed := by
  have hgsne : get_workitem_status db workitem_id job_id ≠ some "completed" := by
    unfold get_workitem_status
    rw [hrow]
    intro hcon
    simp only [Option.map_some', Option.some.injEq] at hcon
    exact hstat hcon
  have hred : process_workitem workitem_id job_id env db =
      (true, update_workitem_status
        (update_workitem_status db workitem_id job_id "in_progress" none env.ts)
        workitem_id job_id "completed" none env.ts) := by
    simp only [process_workitem, hsd, Bool.false_eq_true, if_false, hq,
      List.isEmpty_nil, if_true, if_neg hgsne]
  have hrow1 : findAssoc (update_workitem_status db workitem_id job_id
      "in_progress" none env.ts).workitems (workitem_id, job_id) =
      some { w with status := "in_progress", started_at := some env.ts } := by
    unfold update_workitem_status
    rw [if_pos rfl, findAssoc_updAssoc_self, hrow]
    rfl
  have hrowF : findAssoc (update_workitem_status
      (update_workitem_status db workitem_id job_id "in_progress" none env.ts)
      workitem_id job_id "completed" none env.ts).workitems
      (workitem_id, job_id) =
      some { w with status := "completed", started_at := some env.ts, completed_at := some env.ts, error_message := none } := by
    conv_lhs => rw [update_workitem_status]
    rw [if_neg (by decide), if_pos (Or.inl rfl), findAssoc_updAssoc_self, hrow1]
    rfl
  rw [hred]
  refine ⟨rfl, ?_, ?_, ?_⟩
  · unfold get_workitem_status
    rw [hrowF]
    rfl
  · unfold workitem_total
    rw [hrowF]
    rfl
  · unfold workitem_processed
    rw [hrowF]
    rfl

/-- Counterexample to C9 as stated: a work item whose stored `files_total` is
5 (from an earlier run) resolves to an empty list; `process_workitem` marks it
`'completed'` and returns success, but the stored row keeps
`files_total = 5`, not 0. -/
theorem process_workitem_empty_resolution_stale_total :
    (process_workitem "w" "j" envEmptyQ dbStaleTotal).1 = true ∧
    get_workitem_status (process_workitem "w" "j" envEmptyQ dbStaleTotal).2
      "w" "j" = some "completed" ∧
    workitem_total (process_workitem "w" "j" envEmptyQ dbStaleTotal).2
      "w" "j" = some 5 := by
  refine ⟨by decide, by decide, by decide⟩

/-- Witness for C9's amended theorem at a freshly seeded work item. -/
theorem process_workitem_empty_resolution_witness :
    (process_workitem "w" "j" envEmptyQ dbOneItem).1 = true ∧
    get_workitem_status (process_workitem "w" "j" envEmptyQ dbOneItem).2
      "w" "j" = some "completed" ∧
    workitem_total (process_workitem "w" "j" envEmptyQ dbOneItem).2
      "w" "j" = some wRowPending.files_total ∧
    workitem_processed (process_workitem "w" "j" envEmptyQ dbOneItem).2
      "w" "j" = some wRowPending.files_processed :=
  process_workitem_empty_resolution "w" "j" envEmptyQ dbOneItem wRowPending
    (by decide) (by decide) rfl rfl

/-- C10: when no row exists for `(workitem_id, job_id, filename)`, or the
existing row's status is `'in_progress'` or `'completed'`, `claim_file`
returns `false` and leaves the entire database unchanged. -/
theorem claim_file_no_transition (db : DB)
    (workitem_id job_id filename ts : String)
    (hnd : (keysOf db.files).Nodup)
    (hst : get_file_status db workitem_id job_id filename = none ∨
      get_file_status db workitem_id job_id filename = some "in_progress" ∨
      get_file_status db workitem_id job_id filename = some "completed") :
    claim_file db workitem_id job_id filename ts = (false, db) := by
  apply claim_file_noop db workitem_id job_id filename ts hnd
  unfold get_file_status at hst
  cases hf : findAssoc db.files (workitem_id, job_id, filename) with
  | none => exact Or.inl rfl
  | some r =>
      rw [hf] at hst
      simp only [Option.map_some', Option.some.injEq, reduceCtorEq,
        false_or] at hst
      refine Or.inr ⟨r, rfl, ?_⟩
      rcases hst with h | h <;> simp [claimCond, h]

/-- Witness for C10 at a concrete in-progress file row. -/
theorem claim_file_no_transition_witness :
    claim_file dbFileInProgress "w" "j" "x/a.json" "T" =
      (false, dbFileInProgress) :=
  claim_file_no_transition dbFileInProgress "w" "j" "x/a.json" "T" (by decide)
    (Or.inr (Or.inl (by decide)))

theorem claimSeq_noop (workitem_id job_id filename : String) :
    ∀ (tss : List String) (db : DB), (keysOf db.files).Nodup →
    (findAssoc db.files (workitem_id, job_id, filename) = none ∨
      ∃ r, findAssoc db.files (workitem_id, job_id, filename) = some r ∧
        claimCond r = false) →
    claimSeq db workitem_id job_id filename tss =
      (List.replicate tss.length false, db) := by
  intro tss
  induction tss with
  | nil => intro db _ _; rfl
  | cons t rest ih =>
      intro db hnd hfail
      have hnoop : claim_file db workitem_id job_id filename t = (false, db) :=
        claim_file_noop db workitem_id job_id filename t hnd hfail
      simp only [claimSeq, hnoop, ih db hnd hfail, List.length_cons,
        List.replicate_succ]

/-- C1: a `claim_file` call on a file row whose status is `'pending'` or
`'failed'` transitions it to `'in_progress'` and returns `true`; and over any
non-empty sequence of claim calls on that key, exactly the first returns
`true` — all subsequent calls return `false`. -/
theorem claim_file_exactly_once (db : DB)
    (workitem_id job_id filename ts : String) (s : String)
    (hnd : (keysOf db.files).Nodup)
    (hst : get_file_status db workitem_id job_id filename = some s)
    (hs : s = "pending" ∨ s = "failed") :
    (claim_file db workitem_id job_id filename ts).1 = true ∧
    get_file_status (claim_file db workitem_id job_id filename ts).2
      workitem_id job_id filename = some "in_progress" ∧
    (∀ tss : List String,
      (claimSeq db workitem_id job_id filename (ts :: tss)).1 =
        true :: List.replicate tss.length false ∧
      (claimSeq db workitem_id job_id filename (ts :: tss)).2 =
        (claim_file db workitem_id job_id filename ts).2) := by
  have hr : ∃ r, findAssoc db.files (workitem_id, job_id, filename) = some r ∧
      r.status = s := by
    unfold get_file_status at hst
    cases hf : findAssoc db.files (workitem_id, job_id, filename) with
    | none => rw [hf] at hst; simp at hst
    | some r =>
        rw [hf] at hst
        simp only [Option.map_some', Option.some.injEq] at hst
        exact ⟨r, rfl, hst⟩
  obtain ⟨r, hfr, hrs⟩ := hr
  have hcc : claimCond r = true := by
    rcases hs with h | h <;> simp [claimCond, hrs, h]
  have h1 : (claim_file db workitem_id job_id filename ts).1 = true :=
    claim_file_ret_true db workitem_id job_id filename ts r hnd hfr hcc
  have h2 : get_file_status (claim_file db workitem_id job_id filename ts).2
      workitem_id job_id filename = some "in_progress" := by
    rw [claim_file_status_self db workitem_id job_id filename ts r hfr,
      if_pos hcc]
  refine ⟨h1, h2, ?_⟩
  intro tss
  have hnd' : (keysOf (claim_file db workitem_id job_id filename ts).2.files).Nodup := by
    rw [keysOf_claim_file]
    exact hnd
  have hfail' : findAssoc (claim_file db workitem_id job_id filename
      ts).2.files (workitem_id, job_id, filename) = none ∨
      ∃ r', findAssoc (claim_file db workitem_id job_id filename ts).2.files
        (workitem_id, job_id, filename) = some r' ∧ claimCond r' = false := by
    unfold get_file_status at h2
    cases hf2 : findAssoc (claim_file db workitem_id job_id filename ts).2.files
      (workitem_id, job_id, filename) with
    | none => exact Or.inl rfl
    | some r' =>
        rw [hf2] at h2
        simp only [Option.map_some', Option.some.injEq] at h2
        refine Or.inr ⟨r', rfl, ?_⟩
        simp [claimCond, h2]
  have hseq := claimSeq_noop workitem_id job_id filename tss
    (claim_file db workitem_id job_id filename ts).2 hnd' hfail'
  constructor
  · simp only [claimSeq, hseq, h1]
  · simp only [claimSeq, hseq]

/-- Witness for C1: on a pending file, the first of three claim calls returns
`true` and the remaining two return `false`. -/
theorem claim_file_exactly_once_witness :
    (claim_file dbFilePending "w" "j" "x/a.json" "T").1 = true ∧
    get_file_status (claim_file dbFilePending "w" "j" "x/a.json" "T").2
      "w" "j" "x/a.json" = some "in_progress" ∧
    (claimSeq dbFilePending "w" "j" "x/a.json" ["T", "T2", "T3"]).1 =
      true :: List.replicate 2 false ∧
    (claimSeq dbFilePending "w" "j" "x/a.json" ["T", "T2", "T3"]).2 =
      (claim_file dbFilePending "w" "j" "x/a.json" "T").2 := by
  have h := claim_file_exactly_once dbFilePending "w" "j" "x/a.json" "T"
    "pending" (by decide) (by decide) (Or.inl rfl)
  exact ⟨h.1, h.2.1, (h.2.2 ["T2", "T3"]).1, (h.2.2 ["T2", "T3"]).2⟩

/-- C3 (amended): `update_file_status` increments the parent work item's
`files_processed` by exactly 1 whenever the new status is `'completed'` —
regardless of the file's previous status — and leaves it unchanged for any
other status; two `'completed'` calls on the same file increment it twice. -/
theorem update_file_status_processed (db : DB)
    (workitem_id job_id filename st : String) (err : Option String)
    (ts : String) (p : Nat)
    (hp : workitem_processed db workitem_id job_id = some p) :
    workitem_processed
      (update_file_status db workitem_id job_id filename st err ts)
      workitem_id job_id = some (if st = "completed" then p + 1 else p) := by
  rw [workitem_processed_update_file_status]
  unfold workitem_processed at hp
  cases hf : findAssoc db.workitems (workitem_id, job_id) with
  | none => rw [hf] at hp; simp at hp
  | some r =>
      rw [hf] at hp
      simp only [Option.map_some', Option.some.injEq] at hp
      unfold workitem_processed
      rw [hf]
      simp [hp]

/-- Witness for C3's amended theorem: a `'completed'` write increments the
counter of the concrete seeded work item from 0 to 1. -/
theorem update_file_status_processed_witness :
    workitem_processed
      (update_file_status dbOneItem "w" "j" "f" "completed" none "T")
      "w" "j" = some 1 := by
  have h := update_file_status_processed dbOneItem "w" "j" "f" "completed"
    none "T" 0 (by decide)
  simpa using h

/-- Counterexample to C3 as stated: on a file already `'completed'` (and
already counted, `files_processed = 1`), another `update_file_status` call
with status `'completed'` increments `files_processed` again, to 2 — the code
never checks the previous status before incrementing. -/
theorem update_file_status_double_increment :
    get_file_status dbC3 "w" "j" "f" = some "completed" ∧
    workitem_processed dbC3 "w" "j" = some 1 ∧
    workitem_processed
      (update_file_status dbC3 "w" "j" "f" "completed" none "T2")
      "w" "j" = some 2 := by
  refine ⟨by decide, by decide, by decide⟩

/-- C4: the de-duplication key of `process_workitem` is
`os.path.basename(filename)` alone, not the destination blob name: two
resolved entries with the same base name but different work-item names have
distinct destination blob names, yet the second is dropped, and the recorded
unique count is 1 instead of 2. -/
theorem dedupe_drops_distinct_destination :
    blob_name fmA ≠ blob_name fmB ∧
    basename fmA.filename = basename fmB.filename ∧
    dedupeFiles [fmA, fmB] = [fmA] ∧
    (dedupeFiles [fmA, fmB]).length = 1 := by
  refine ⟨by decide, by decide, by decide, by decide⟩

/-- Auxiliary evaluation: two entries with distinct base names both survive
de-duplication. -/
theorem dedupe_keeps_distinct_basenames :
    dedupeFiles [fmA, fmC] = [fmA, fmC] := by decide

/-- C5: `belongs_to_partition` is built on Python's per-process salted
string hash, so the cooperating partition processes evaluate it with
different hash functions.  At the failing input (id `"ab"`, two partitions,
process salts under which `"ab"` hashes to 2 and 3 respectively): partition
process 0 under salt A and partition process 1 under salt B both select the
id (it is processed twice), while under the opposite salt assignment neither
selects it (it is silently dropped) — the claimed determinism and
disjoint-cover fail across processes. -/
theorem belongs_to_partition_salted_hash_breaks_partition :
    (belongs_to_partition hashSaltA "ab" 0 2 = true ∧
     belongs_to_partition hashSaltB "ab" 1 2 = true) ∧
    (belongs_to_partition hashSaltB "ab" 0 2 = false ∧
     belongs_to_partition hashSaltA "ab" 1 2 = false) := by
  refine ⟨⟨by decide, by decide⟩, ⟨by decide, by decide⟩⟩

theorem tallyLoop_no_shutdown (l : List (Bool × FutureOutcome)) :
    ∀ acc : Nat × Nat × Nat, (∀ e ∈ l, e.1 = false) →
    tallyLoop l acc = l.foldl (fun a e => tallyStep a e.2) acc := by
  induction l with
  | nil => intro acc _; rfl
  | cons e rest ih =>
      intro acc h
      have he : e.1 = false := h e (List.mem_cons_self e rest)
      simp only [tallyLoop, he, Bool.false_eq_true, if_false, List.foldl_cons]
      exact ih _ (fun e' he' => h e' (List.mem_cons_of_mem e he'))

theorem tally_failed_count (l : List (Bool × FutureOutcome)) :
    ∀ acc : Nat × Nat × Nat,
    (l.foldl (fun a e => tallyStep a e.2) acc).2.1 =
      acc.2.1 + l.countP (fun e => e.2 == FutureOutcome.result false ||
        e.2 == FutureOutcome.errored) := by
  induction l with
  | nil => intro acc; simp
  | cons e rest ih =>
      intro acc
      rw [List.foldl_cons, ih, List.countP_cons]
      cases ho : e.2 with
      | result b => cases b <;> (simp [tallyStep, ho]; try omega)
      | cancelled => simp [tallyStep, ho]
      | errored => simp [tallyStep, ho]; omega

/-- C7 (amended): when the result loop is never interrupted by a shutdown
signal, the process exit status is 0 exactly when no consumed work-item
future reported failure or raised; under a shutdown, the loop can break
before consuming a FAILED item's result, so a FAILED work item can coexist
with exit status 0. -/
theorem mainExit_zero_iff_no_failures (l : List (Bool × FutureOutcome))
    (hnosd : ∀ e ∈ l, e.1 = false) :
    (mainExit l = 0 ↔ ∀ e ∈ l, e.2 ≠ FutureOutcome.result false ∧
      e.2 ≠ FutureOutcome.errored) := by
  unfold mainExit
  rw [tallyLoop_no_shutdown l (0, 0, 0) hnosd, tally_failed_count l (0, 0, 0)]
  simp only [Nat.zero_add]
  constructor
  · intro h e he
    have hcnt : l.countP (fun e => e.2 == FutureOutcome.result false ||
        e.2 == FutureOutcome.errored) = 0 := by
      by_cases hc : l.countP (fun e => e.2 == FutureOutcome.result false ||
          e.2 == FutureOutcome.errored) = 0
      · exact hc
      · rw [if_pos (by omega)] at h
        exact absurd h (by decide)
    have := List.countP_eq_zero.mp hcnt e he
    simp only [Bool.or_eq_true, beq_iff_eq, not_or] at this
    exact this
  · intro h
    have hcnt : l.countP (fun e => e.2 == FutureOutcome.result false ||
        e.2 == FutureOutcome.errored) = 0 := by
      apply List.countP_eq_zero.mpr
      intro e he
      have := h e he
      simp only [Bool.or_eq_true, beq_iff_eq, not_or]
      exact this
    rw [hcnt]
    simp

/-- Counterexample to C7 as stated: a work item whose only file transfer
fails ends the run with stored status `'failed'` and a `false` future result,
but when the scheduler observes the shutdown event at that future's
iteration it breaks before tallying, so the failed count stays 0 and the
exit status is 0. -/
theorem failed_workitem_zero_exit_under_shutdown :
    (process_workitem "w" "j" envFailT dbOneItem).1 = false ∧
    get_workitem_status (process_workitem "w" "j" envFailT dbOneItem).2
      "w" "j" = some "failed" ∧
    mainExit [(true, FutureOutcome.result false)] = 0 := by
  refine ⟨by decide, by decide, by decide⟩

/-- Witness for C7's amended theorem: a single successful, shutdown-free
entry yields exit status 0. -/
theorem mainExit_zero_iff_no_failures_witness :
    mainExit [(false, FutureOutcome.result true)] = 0 :=
  (mainExit_zero_iff_no_failures [(false, FutureOutcome.result true)]
    (by decide)).mpr (by decide)

theorem tallyLoop_break (pre : List (Bool × FutureOutcome)) :
    ∀ (o : FutureOutcome) (post : List (Bool × FutureOutcome))
      (acc : Nat × Nat × Nat),
    tallyLoop (pre ++ (true, o) :: post) acc = tallyLoop pre acc := by
  induction pre with
  | nil => intro o post acc; rfl
  | cons e rest ih =>
      intro o post acc
      by_cases he : e.1 = true
      · simp only [List.cons_append, tallyLoop, he, if_true]
      · have he' : e.1 = false := Bool.eq_false_iff.mpr he
        simp only [List.cons_append, tallyLoop, he', Bool.false_eq_true,
          if_false]
        exact ih o post _

/-- C6: when the shutdown signal is observed while draining the inner file
pool, `process_workitem` reverts the work item to `'pending'` with the
shutdown note, leaves every already-completed file row `'completed'`, and the
returned (false) outcome is consumed at a scheduler iteration whose shutdown
check fires, so the tally loop breaks and counts it neither as completed nor
as failed. -/
theorem process_workitem_shutdown_revert (workitem_id job_id : String)
    (env : Env) (db : DB) (fs : List FileMetadata) (w : WorkItemRow)
    (hwf : db.wf)
    (hrow : findAssoc db.workitems (workitem_id, job_id) = some w)
    (hstat : w.status ≠ "completed")
    (hq : env.queryResult = Except.ok fs)
    (hfs : fs ≠ [])
    (hsd1 : env.shutdownAtStart = false)
    (hsd2 : env.shutdownBeforeDispatch = false)
    (hC : claimedFiles workitem_id job_id env db fs ≠ [])
    (hsd3 : ∃ j, j < (claimedFiles workitem_id job_id env db fs).length ∧
      env.shutdownDuring j = true) :
    (process_workitem workitem_id job_id env db).1 = false ∧
    get_workitem_status (process_workitem workitem_id job_id env db).2
      workitem_id job_id = some "pending" ∧
    workitem_error (process_workitem workitem_id job_id env db).2
      workitem_id job_id = some (some "Shutdown requested mid-processing") ∧
    completedPreserved db (process_workitem workitem_id job_id env db).2 ∧
    (∀ (pre post : List (Bool × FutureOutcome)) (o : FutureOutcome)
      (acc : Nat × Nat × Nat),
      tallyLoop (pre ++ (true, o) :: post) acc = tallyLoop pre acc) := by
  have hgsne : get_workitem_status db workitem_id job_id ≠ some "completed" := by
    unfold get_workitem_status
    rw [hrow]
    intro hcon
    simp only [Option.map_some', Option.some.injEq] at hcon
    exact hstat hcon
  have hred := process_workitem_main_path workitem_id job_id env db fs hsd1
    hgsne hq hfs hsd2
  set u := dedupeFiles fs with hu
  set db1 := update_workitem_status db workitem_id job_id "in_progress" none
    env.ts with hdb1
  set db2 := update_workitem_file_count db1 workitem_id job_id u.length
    with hdb2
  have hrow1 : findAssoc db1.workitems (workitem_id, job_id) =
      some { w with status := "in_progress", started_at := some env.ts } := by
    rw [hdb1]
    unfold update_workitem_status
    rw [if_pos rfl, findAssoc_updAssoc_self, hrow]
    rfl
  have hrow2 : findAssoc db2.workitems (workitem_id, job_id) =
      some { w with status := "in_progress", started_at := some env.ts, files_total := u.length } := by
    rw [hdb2, findAssoc_update_file_count_some db1 workitem_id job_id u.length
      _ hrow1]
  have hnd2 : (keysOf db2.files).Nodup := hwf.2
  have hgfs2 : ∀ fn, get_file_status db2 workitem_id job_id fn =
      get_file_status db workitem_id job_id fn := fun _ => rfl
  obtain ⟨cwi, cnd, cacc, cprog, cframe, cpres⟩ :=
    claimLoop_fold_spec workitem_id job_id env.ts u db2 [] hnd2
      (by rw [hu]; exact dedupeFiles_filenames_nodup fs)
  set c := claimLoop workitem_id job_id env.ts db2 u with hc
  have hcacc : c.2 = u.filter
      (fun f => claimable (get_file_status db2 workitem_id job_id f.filename)) := by
    have h0 : c.2 = [] ++ u.filter
        (fun f => claimable (get_file_status db2 workitem_id job_id f.filename)) :=
      cacc
    simpa only [List.nil_append] using h0
  have hcwi : c.1.workitems = db2.workitems := cwi
  have hCc : claimedFiles workitem_id job_id env db fs = c.2 := rfl
  have hCe : c.2.isEmpty = false := by
    rw [← hCc]
    cases hcf : claimedFiles workitem_id job_id env db fs with
    | nil => exact absurd hcf hC
    | cons a l => rfl
  have hfinal : process_workitem workitem_id job_id env db =
      drainFiles workitem_id job_id env 0 c.1 c.2 [] := by
    rw [hred, if_neg (by rw [hCe]; exact Bool.false_ne_true)]
  have hrowc : findAssoc c.1.workitems (workitem_id, job_id) =
      some { w with status := "in_progress", started_at := some env.ts, files_total := u.length } := by
    rw [hcwi, hrow2]
  have hCnodup : (c.2.map (fun f => f.filename)).Nodup := by
    rw [hcacc]
    exact List.Nodup.sublist
      (List.Sublist.map (fun f => f.filename) (List.filter_sublist u))
      (by rw [hu]; exact dedupeFiles_filenames_nodup fs)
  have hCprog : ∀ f ∈ c.2, get_file_status c.1 workitem_id job_id f.filename =
      some "in_progress" := by
    intro f hf
    rw [hcacc] at hf
    have hmem := List.mem_filter.mp hf
    exact cprog f hmem.1 hmem.2
  have hsd3' : ∃ j, j < c.2.length ∧ env.shutdownDuring (0 + j) = true := by
    obtain ⟨j, hjl, hjt⟩ := hsd3
    exact ⟨j, by rw [hCc] at hjl; exact hjl, by rw [Nat.zero_add]; exact hjt⟩
  obtain ⟨d1, d2, d3, d4⟩ := drainFiles_shutdown workitem_id job_id env c.2 0
    c.1 [] _ hrowc hCnodup hCprog hsd3'
  rw [hfinal]
  refine ⟨d1, d2, d3, ?_, fun pre post o acc => tallyLoop_break pre o post acc⟩
  have hp1 : completedPreserved db db1 :=
    completedPreserved_update_workitem_status db workitem_id job_id
      "in_progress" none env.ts
  have hp2 : completedPreserved db1 db2 :=
    completedPreserved_update_workitem_file_count db1 workitem_id job_id
      u.length
  exact completedPreserved_trans hp1 (completedPreserved_trans hp2
    (completedPreserved_trans cpres d4))

/-- Witness for C6: two claimed files, shutdown observed at the first drain
step; the concrete work item reverts to `'pending'` and a concrete shutdown-
flagged tally entry is not counted. -/
theorem process_workitem_shutdown_revert_witness :
    (process_workitem "w" "j" envShut dbOneItem).1 = false ∧
    get_workitem_status (process_workitem "w" "j" envShut dbOneItem).2
      "w" "j" = some "pending" ∧
    workitem_error (process_workitem "w" "j" envShut dbOneItem).2 "w" "j" =
      some (some "Shutdown requested mid-processing") ∧
    completedPreserved dbOneItem
      (process_workitem "w" "j" envShut dbOneItem).2 ∧
    tallyLoop ([(false, FutureOutcome.result true)] ++
      (true, FutureOutcome.result false) :: []) (0, 0, 0) =
      tallyLoop [(false, FutureOutcome.result true)] (0, 0, 0) := by
  have h := process_workitem_shutdown_revert "w" "j" envShut dbOneItem
    [fmA, fmC] wRowPending (by decide) (by decide) (by decide) rfl
    (by decide) rfl rfl (by decide) ⟨0, by decide, rfl⟩
  exact ⟨h.1, h.2.1, h.2.2.1, h.2.2.2.1,
    h.2.2.2.2 [(false, FutureOutcome.result true)] []
      (FutureOutcome.result false) (0, 0, 0)⟩

/-- Witness for C2's amended theorem: one resolved file on a freshly seeded
work item, all transfers succeed; the final stored row satisfies both
invariants. -/
theorem process_workitem_processed_le_total_witness :
    procLeTotal (process_workitem "w" "j" envBase dbOneItem).2 "w" "j" ∧
    completedImpliesEq (process_workitem "w" "j" envBase dbOneItem).2
      "w" "j" :=
  process_workitem_processed_le_total "w" "j" envBase dbOneItem [fmA]
    wRowPending (by decide) (by decide) (by decide) rfl (by decide) rfl rfl
    (fun _ => rfl) (by decide) (by decide) (by decide)

/-- Counterexample to C2 as stated: when the item's only resolved file is
stranded `'in_progress'` (as a cancelled prior run leaves it), the claim loop
claims nothing and the early path marks the work item `'completed'` with
`files_processed = 0` while `files_total` was just set to 1 — the completed
outcome does not have `files_processed = files_total`. -/
theorem completed_with_processed_lt_total :
    (process_workitem "w" "j" envBase dbFileInProgress).1 = true ∧
    get_workitem_status (process_workitem "w" "j" envBase dbFileInProgress).2
      "w" "j" = some "completed" ∧
    workitem_processed (process_workitem "w" "j" envBase dbFileInProgress).2
      "w" "j" = some 0 ∧
    workitem_total (process_workitem "w" "j" envBase dbFileInProgress).2
      "w" "j" = some 1 := by
  refine ⟨by decide, by decide, by decide, by decide⟩
